import Mathlib

/-!
Shallow embedding of the `exo-join` mesh-join engine
(`src/exo-join/main.cpp` of andrsd/exodusII-utils) and proofs about it.

Modelling conventions:
* `double` coordinates are modelled as `ℚ` (exact arithmetic idealizing the
  real-number reading of the algorithm).
* C++ exceptions (`throw std::runtime_error`, `std::map::at` throwing
  `std::out_of_range`) are modelled as `Except` errors carrying
  `Outcome.raised e`.
* Unchecked `std::vector::operator[]` accesses outside the valid range are
  undefined behavior in the C++ source (no exception is raised); they are
  modelled as the distinguished result `Outcome.undefinedBehavior`.
* `std::map<K,V>` values are modelled as association lists; `std::set` as a
  sorted, duplicate-free list (`set_insert`).  The node map
  `std::map<Point,int>` assigns insertion-order ids, so it is modelled as the
  list of its keys in insertion order (the id of a key is its list position);
  this is faithful because the ids stored are exactly `0, 1, 2, ...` in
  insertion order and the keys are distinct.
-/

namespace ExoJoin

/-- Error kinds raised by the join engine (plus the kinds the specification
document names; `IndexError` and `ConsistencyError` appear in the spec's §7
error table but, as proved below, are never produced by the code). -/
inductive JoinError where
  | UnsupportedDimension (dim : Int)
  | UnsupportedElementType (tag : String)
  /-- `std::map::at` throwing `std::out_of_range` for a missing key. -/
  | MapOutOfRange (key : Int)
  /-- Spec §7 kind: connectivity references a local node id out of range.
  The code contains no throw site for this kind. -/
  | IndexError
  /-- Spec §7 kind: same block id with different element types across files.
  The code contains no throw site for this kind. -/
  | ConsistencyError
deriving DecidableEq, Repr

/-- Outcome of running a piece of the C++ pipeline: either an exception was
raised (and can be caught in `main`), or the program hit undefined behavior
(an unchecked out-of-bounds `std::vector` access), or an `assert` failed. -/
inductive Outcome where
  | raised (e : JoinError)
  | undefinedBehavior
  | assertFailed
deriving DecidableEq, Repr

end ExoJoin

deriving instance DecidableEq for Except

namespace ExoJoin

/-- `true` iff an `Except` computation succeeded. -/
def isOkB {ε α : Type} : Except ε α → Bool
  | .ok _ => true
  | .error _ => false

/-- Unchecked `std::vector::operator[]` with a `Nat` subscript: out-of-range
access is undefined behavior, not an exception. -/
def vget {α : Type} (l : List α) (i : Nat) : Except Outcome α :=
  match l.get? i with
  | some a => .ok a
  | none => .error .undefinedBehavior

/-- Unchecked `std::vector::operator[]` with an `int` subscript. -/
def vgetI {α : Type} (l : List α) (i : Int) : Except Outcome α :=
  if h : 0 ≤ i ∧ i.toNat < l.length then .ok (l.get ⟨i.toNat, h.2⟩)
  else .error .undefinedBehavior

/-- Unchecked in-place write `dest[i] = v`. -/
def vset {α : Type} (l : List α) (i : Nat) (v : α) : Except Outcome (List α) :=
  if i < l.length then .ok (l.set i v) else .error .undefinedBehavior

/-- Association-list lookup (models `std::map::find` success/failure). -/
def alist_lookup {α : Type} : List (Int × α) → Int → Option α
  | [], _ => none
  | (k, v) :: rest, key => if key = k then some v else alist_lookup rest key

/-- `std::map::at`: throws `std::out_of_range` when the key is missing. -/
def alist_at {α : Type} (m : List (Int × α)) (k : Int) : Except Outcome α :=
  match alist_lookup m k with
  | some v => .ok v
  | none => .error (.raised (.MapOutOfRange k))

/-- `std::map::emplace`: inserts only when the key is not yet present. -/
def alist_emplace {α : Type} (m : List (Int × α)) (k : Int) (v : α) : List (Int × α) :=
  match alist_lookup m k with
  | some _ => m
  | none => m ++ [(k, v)]

/-- `std::map::operator[] = v`: insert or overwrite. -/
def alist_set {α : Type} : List (Int × α) → Int → α → List (Int × α)
  | [], k, v => [(k, v)]
  | (k', v') :: rest, k, v =>
      if k = k' then (k', v) :: rest else (k', v') :: alist_set rest k v

/-- `std::map::operator[]` read with default construction for missing keys. -/
def alist_getD {α : Type} (m : List (Int × α)) (k : Int) (d : α) : α :=
  (alist_lookup m k).getD d

/-- `std::set<int64_t>::insert`, keeping the list sorted and duplicate-free. -/
def set_insert : List Int → Int → List Int
  | [], x => [x]
  | y :: ys, x =>
      if x < y then x :: y :: ys
      else if x = y then y :: ys
      else y :: set_insert ys x

/-!
Rational arithmetic helpers.  Batteries marks `Rat.add`, `Rat.mul`, `Rat.inv`,
`Rat.sub` and `Rat.neg` `@[irreducible]`, which blocks definitional evaluation
(`decide`) on concrete inputs.  The embedding therefore computes with
equivalent `Rat.divInt`-based operations; the `..._eq` bridge lemmas below
prove each one equal to the standard operation, so every definition can be
read in the source's own arithmetic notation.
-/

/-- Rational addition, computably. -/
def addQ (a b : ℚ) : ℚ := Rat.divInt (a.num * b.den + b.num * a.den) (a.den * b.den)

/-- Rational multiplication, computably. -/
def mulQ (a b : ℚ) : ℚ := Rat.divInt (a.num * b.num) (a.den * b.den)

/-- Rational division, computably. -/
def divQ (a b : ℚ) : ℚ := Rat.divInt (a.num * b.den) (a.den * b.num)

/-- Rational negation, computably. -/
def negQ (a : ℚ) : ℚ := Rat.divInt (-a.num) a.den

/-- The rational `1/2`, computably. -/
def halfQ : ℚ := Rat.divInt 1 2

/-- Floor of a rational, computably. -/
def floorQ (q : ℚ) : ℤ := q.num / q.den

/-- Integer embedded in `ℚ`, computably. -/
def intQ (k : ℤ) : ℚ := Rat.divInt k 1

/-- `constexpr double SNAP_TOLERANCE = 1e-10;` (the rational `1/10^10`). -/
def SNAP_TOLERANCE : ℚ := Rat.divInt 1 10000000000

/-- `struct Point { double x, y, z; }` -/
structure Point where
  x : ℚ
  y : ℚ
  z : ℚ
deriving DecidableEq, Repr, Inhabited

/-- `std::round`: round half away from zero.
Equals `if 0 ≤ v then ⌊v + 1/2⌋ else -⌊-v + 1/2⌋` (see `roundCpp_eq`). -/
def roundCpp (v : ℚ) : ℤ :=
  if 0 ≤ v then floorQ (addQ v halfQ) else -floorQ (addQ (negQ v) halfQ)

/-- The lambda inside `snap_point`: `std::round(v / tol) * tol`
(see `snap_coord_eq`). -/
def snap_coord (v tol : ℚ) : ℚ :=
  mulQ (intQ (roundCpp (divQ v tol))) tol

/-- `snap_point`: snap a point to a grid. -/
def snap_point (p : Point) (tol : ℚ) : Point :=
  { x := snap_coord p.x tol, y := snap_coord p.y tol, z := snap_coord p.z tol }

theorem addQ_eq (a b : ℚ) : addQ a b = a + b := by
  unfold addQ
  rw [← Rat.num_divInt_den a, ← Rat.num_divInt_den b,
    Rat.divInt_add_divInt _ _ (by exact_mod_cast a.den_nz) (by exact_mod_cast b.den_nz)]
  simp [Rat.num_divInt_den]

theorem mulQ_eq (a b : ℚ) : mulQ a b = a * b := by
  unfold mulQ
  rw [← Rat.divInt_mul_divInt', Rat.num_divInt_den, Rat.num_divInt_den]

theorem negQ_eq (a : ℚ) : negQ a = -a := (Rat.neg_def a).symm

theorem halfQ_eq : halfQ = 1 / 2 := by
  unfold halfQ
  norm_num [Rat.divInt_eq_div]

theorem floorQ_eq (q : ℚ) : floorQ q = ⌊q⌋ := (Rat.floor_def).symm

theorem intQ_eq (k : ℤ) : intQ k = (k : ℚ) := by
  unfold intQ
  simp [Rat.divInt_eq_div]

theorem divQ_eq (a b : ℚ) : divQ a b = a / b := by
  unfold divQ
  rw [← Rat.divInt_div_divInt, Rat.num_divInt_den, Rat.num_divInt_den]

theorem SNAP_TOLERANCE_eq : SNAP_TOLERANCE = 1 / 10 ^ 10 := by
  unfold SNAP_TOLERANCE
  norm_num [Rat.divInt_eq_div]

theorem roundCpp_eq (v : ℚ) :
    roundCpp v = if 0 ≤ v then ⌊v + 1 / 2⌋ else -⌊-v + 1 / 2⌋ := by
  unfold roundCpp
  simp [floorQ_eq, addQ_eq, negQ_eq, halfQ_eq]

theorem snap_coord_eq (v tol : ℚ) :
    snap_coord v tol = (roundCpp (v / tol) : ℚ) * tol := by
  unfold snap_coord
  rw [mulQ_eq, intQ_eq, divQ_eq]

/-- `enum class ElementType` from `src/exo-join/main.cpp`. -/
inductive ElementType where
  | POINT1
  | SEGMENT2
  | TRI3
  | QUAD4
  | TET4
  | HEX8
  | PRISM6
  | PYRAMID5
deriving DecidableEq, Repr

/-- `element_type` from `src/exo-join/main.cpp` (the join's own table; note it
recognizes only BAR2/TRI/TRI3/QUAD/QUAD4, unlike the one in
`src/common/common.h`). -/
def element_type (str : String) : Except Outcome ElementType :=
  if str = "BAR2" then .ok .SEGMENT2
  else if str = "TRI" ∨ str = "TRI3" then .ok .TRI3
  else if str = "QUAD" ∨ str = "QUAD4" then .ok .QUAD4
  else .error (.raised (.UnsupportedElementType str))

/-- `element_type_str` from `src/exo-join/main.cpp`. -/
def element_type_str (et : ElementType) : Except Outcome String :=
  if et = .SEGMENT2 then .ok "BAR2"
  else if et = .TRI3 then .ok "TRI3"
  else if et = .QUAD4 then .ok "QUAD4"
  else if et = .TET4 then .ok "TET4"
  else .error (.raised (.UnsupportedElementType ""))

/-!  The node map `std::map<Point, int>` and `read_file`. -/

/-- Lookup of a point's id in the node map (modelled as the insertion-ordered
list of keys; the id of a key is its position). -/
def nm_lookup : List Point → Point → Option Nat
  | [], _ => none
  | q :: m, p => if p = q then some 0 else (nm_lookup m p).map (· + 1)

/-- `node_map.emplace(pt, node_map.size())`: if `pt` is present the map is
unchanged and its existing id is returned; otherwise `pt` is appended with id
`node_map.size()` (the count of distinct points inserted so far). -/
def nm_get_or_insert (m : List Point) (p : Point) : List Point × Nat :=
  match nm_lookup m p with
  | some i => (m, i)
  | none => (m ++ [p], m.length)

/-- The per-node loop body of `read_file`, iterated over the file's raw
coordinate list: snap each point, `emplace` it, and record the returned
global id at the node's local position. -/
def read_file_nodes : List Point → List Point → List Point × List Nat
  | m, [] => (m, [])
  | m, p :: ps =>
      let qp := snap_point p SNAP_TOLERANCE
      let r1 := nm_get_or_insert m qp
      let r2 := read_file_nodes r1.1 ps
      (r2.1, r1.2 :: r2.2)

/-- One element block of an input file, as exposed by the exodusIIcpp reader:
id, element-type tag string, nodes per element, 1-based flat connectivity. -/
structure EBlock where
  id : Int
  elemTypeStr : String
  nNodesPerElem : Nat
  connect : List Int
deriving DecidableEq, Repr, Inhabited

/-- An input file as exposed by the exodusIIcpp reader interface: spatial
dimension, per-axis coordinate arrays, element blocks, nodal variable names,
time values, and per-timestep-per-variable local value arrays
(`nodalVals[t][v]` is the local array returned by
`get_nodal_variable_values(t+1, v+1)`). -/
structure ExoFile where
  dim : Int
  xc : List ℚ
  yc : List ℚ
  zc : List ℚ
  blocks : List EBlock
  nodalVarNames : List String
  times : List ℚ
  nodalVals : List (List (List ℚ))
deriving DecidableEq, Repr, Inhabited

/-- The raw (unsnapped) points the `read_file` loop ranges over: for `dim = 2`
the pairs `{x[i], y[i], 0}`, for `dim = 3` the triples `{x[i], y[i], z[i]}`. -/
def file_points (f : ExoFile) (dim : Int) : List Point :=
  if dim = 2 then f.xc.zipWith (fun x y => { x := x, y := y, z := 0 }) f.yc
  else (f.xc.zip (f.yc.zip f.zc)).map fun t => { x := t.1, y := t.2.1, z := t.2.2 }

/-- `read_file`: build this file's index set (local node ordinal → global id)
while growing the shared node map; dimension other than 2 or 3 throws
`Unsupported dimension`. -/
def read_file (f : ExoFile) (dim : Int) (m : List Point) :
    Except Outcome (List Point × List Nat) :=
  if dim = 2 ∨ dim = 3 then .ok (read_file_nodes m (file_points f dim))
  else .error (.raised (.UnsupportedDimension dim))

/-- `read_element_types`: a FRESH map built from this file's blocks alone. -/
def read_element_types (f : ExoFile) : Except Outcome (List (Int × ElementType)) :=
  f.blocks.foldlM
    (fun bet eb => do
      let et ← element_type eb.elemTypeStr
      pure (alist_emplace bet eb.id et))
    []

/-- `read_block_ids`: insert this file's block ids into the shared set. -/
def read_block_ids (f : ExoFile) (block_ids : List Int) : List Int :=
  f.blocks.foldl (fun s eb => set_insert s eb.id) block_ids

/-- `read_elements`: records each block's nodes-per-element in the
(process-global) `num_nodes_per_elem` map and returns this file's
block-id → connectivity map. -/
def read_elements (nnpe : List (Int × Nat)) (f : ExoFile) :
    List (Int × Nat) × List (Int × List Int) :=
  f.blocks.foldl
    (fun acc eb => (alist_set acc.1 eb.id eb.nNodesPerElem, alist_emplace acc.2 eb.id eb.connect))
    (nnpe, [])

/-- The loop body of `remap_connectivity`: `idx = is[idx - 1] + 1` with the
UNCHECKED `std::vector::operator[]`. -/
def remap_one (is : List Nat) (idx : Int) : Except Outcome Int := do
  let g ← vgetI is (idx - 1)
  pure ((g : Int) + 1)

/-- `remap_connectivity`: `idx = is[idx - 1] + 1` for every entry, using the
UNCHECKED `std::vector::operator[]`; an out-of-range local id is an
out-of-bounds access (undefined behavior), not a raised error. -/
def remap_connectivity (connect : List Int) (is : List Nat) : Except Outcome (List Int) :=
  connect.mapM (remap_one is)

/-- `read_nodal_vals`: per timestep, per variable, this file's local value
array (the reader interface guarantees the arrays exist for every valid
`t`/`var` pair, so the accessor is total). -/
def read_nodal_vals (f : ExoFile) : List (List (List ℚ)) :=
  (List.range f.times.length).map fun t =>
    (List.range f.nodalVarNames.length).map fun v =>
      ((f.nodalVals.getD t []).getD v [])

/-- The accumulators of `join_files` that the per-file loop mutates.
`num_nodes_per_elem` is a process-global `std::map` in the source; since
`join_files` runs once per process it is threaded here as a field. -/
structure JoinState where
  dim : Int
  node_map : List Point
  index_sets : List (List Nat)
  block_ids : List Int
  block_element_type : List (Int × ElementType)
  block_connect : List (Int × List Int)
  num_nodes_per_elem : List (Int × Nat)
  nodal_var_names : List String
  times : List ℚ
  nodal_vals : List (List (List (List ℚ)))
deriving DecidableEq, Repr, Inhabited

/-- The body of the remap-and-append loop over this file's blocks
(`block_connect[id].insert(end, ...)`). -/
def merge_blocks (is : List Nat) (blocks : List (Int × List Int))
    (bconn : List (Int × List Int)) : Except Outcome (List (Int × List Int)) :=
  blocks.foldlM
    (fun acc kv => do
      let c ← remap_connectivity kv.2 is
      pure (alist_set acc kv.1 (alist_getD acc kv.1 [] ++ c)))
    bconn

/-- One iteration of the read loop of `join_files` (lines 295-319 of
`src/exo-join/main.cpp`), in source order: `dim = get_dim()`,
`read_block_ids`, `block_element_type = read_element_types(...)` (the map is
REPLACED, not merged), `index_set[i] = read_file(...)`, `read_elements` and
the remap-append loop, then `nodal_var_names`, `times` and the file's nodal
values (the first two are REPLACED each iteration). -/
def process_file (st : JoinState) (f : ExoFile) : Except Outcome JoinState := do
  let bet ← read_element_types f
  let nmis ← read_file f f.dim st.node_map
  let bconn ← merge_blocks nmis.2 (read_elements st.num_nodes_per_elem f).2 st.block_connect
  pure
    { dim := f.dim
      node_map := nmis.1
      index_sets := st.index_sets ++ [nmis.2]
      block_ids := read_block_ids f st.block_ids
      block_element_type := bet
      block_connect := bconn
      num_nodes_per_elem := (read_elements st.num_nodes_per_elem f).1
      nodal_var_names := f.nodalVarNames
      times := f.times
      nodal_vals := st.nodal_vals ++ [read_nodal_vals f] }

/-- The initial accumulator state of `join_files` (`dim = -1`, all maps
empty). -/
def init_state : JoinState :=
  { dim := -1, node_map := [], index_sets := [], block_ids := [],
    block_element_type := [], block_connect := [], num_nodes_per_elem := [],
    nodal_var_names := [], times := [], nodal_vals := [] }

/-- The read loop of `join_files`: every input file is processed in order;
the first raised error (or undefined behavior) aborts the loop. -/
def read_phase (fs : List ExoFile) : Except Outcome JoinState :=
  fs.foldlM process_file init_state

/-!  The write phase. -/

/-- C++ integer division: division by zero is undefined behavior. -/
def cppDivNat (a b : Nat) : Except Outcome Nat :=
  if b = 0 then .error .undefinedBehavior else .ok (a / b)

/-- `scatter`: `assert(src.size() == idx.size())`, then the unchecked writes
`dest[idx[i]] = src[i]` in order. -/
def scatter (src : List ℚ) (idx : List Nat) (dest : List ℚ) : Except Outcome (List ℚ) :=
  if src.length ≠ idx.length then .error .assertFailed
  else (src.zip idx).foldlM (fun d vi => vset d vi.2 vi.1) dest

/-- `write_nodes`: emit the coordinate arrays.  The map iteration
`x[idx] = pt.x` writes each global id exactly once with the coordinates of
the map KEY (the quantized point), so the arrays are exactly the key list
projected per axis; for `dim = 2` no z-array is written. -/
def write_nodes (dim : Int) (node_map : List Point) :
    Except Outcome (List ℚ × List ℚ × List ℚ) :=
  if dim = 2 then .ok (node_map.map Point.x, node_map.map Point.y, [])
  else if dim = 3 then .ok (node_map.map Point.x, node_map.map Point.y, node_map.map Point.z)
  else .error (.raised (.UnsupportedDimension dim))

/-- `write_elements`: for each block id (in the `std::set`'s sorted order)
compute the element count, look the element type up with
`block_element_type.at(blk_id)` — which THROWS when the id is absent — and
emit the block. -/
def write_elements (block_ids : List Int) (bet : List (Int × ElementType))
    (bconn : List (Int × List Int)) (nnpe : List (Int × Nat)) :
    Except Outcome (List (Int × String × Nat × List Int)) :=
  block_ids.mapM fun blk_id => do
    let conn ← alist_at bconn blk_id
    let n ← cppDivNat conn.length (alist_getD nnpe blk_id 0)
    let et ← alist_at bet blk_id
    let ets ← element_type_str et
    pure (blk_id, ets, n, conn)

/-- `var_values[fi][t][var_idx]` with unchecked vector subscripts. -/
def vget2 (nv : List (List (List ℚ))) (t v : Nat) : Except Outcome (List ℚ) := do
  let a ← vget nv t
  vget a v

/-- The inner file loop of `write_nodal_variables` for one `(t, var)` pair:
`scatter(var_values[fi][t][var_idx], index_set.at(fi), values)` for each file
index `fi` in order, reusing the running buffer `buf`. -/
def scatter_files (vvs : List (List (List (List ℚ)))) (iss : List (List Nat))
    (t v fi : Nat) (buf : List ℚ) : Except Outcome (List ℚ) :=
  match vvs with
  | [] => .ok buf
  | nv :: rest => do
      let vals ← vget2 nv t v
      let idx ← match iss.get? fi with
        | some i => Except.ok i
        | none => Except.error (Outcome.raised (JoinError.MapOutOfRange fi))
      let buf' ← scatter vals idx buf
      scatter_files rest iss t v (fi + 1) buf'

/-- The variable loop for one timestep: after the file loop for each
variable, the buffer is written out (`write_nodal_var`); the buffer carries
over unreset to the next variable. -/
def wnv_vars (vvs : List (List (List (List ℚ)))) (iss : List (List Nat)) (t : Nat) :
    List Nat → List ℚ → Except Outcome (List (List ℚ) × List ℚ)
  | [], buf => .ok ([], buf)
  | v :: vrest, buf => do
      let buf' ← scatter_files vvs iss t v 0 buf
      let r ← wnv_vars vvs iss t vrest buf'
      pure (buf' :: r.1, r.2)

/-- The timestep loop: the buffer carries over unreset across timesteps. -/
def wnv_times (vvs : List (List (List (List ℚ)))) (iss : List (List Nat)) (nvars : Nat) :
    List Nat → List ℚ → Except Outcome (List (List (List ℚ)) × List ℚ)
  | [], buf => .ok ([], buf)
  | t :: trest, buf => do
      let r1 ← wnv_vars vvs iss t (List.range nvars) buf
      let r2 ← wnv_times vvs iss nvars trest r1.2
      pure (r1.1 :: r2.1, r2.2)

/-- `write_nodal_variables`: one buffer `std::vector<double> values(n_nodes)`
is allocated zero-initialized ONCE and reused for every timestep/variable. -/
def write_nodal_variables (iss : List (List Nat)) (times : List ℚ) (n_nodes : Nat)
    (var_names : List String) (vvs : List (List (List (List ℚ)))) :
    Except Outcome (List (List (List ℚ))) := do
  let r ← wnv_times vvs iss var_names.length (List.range times.length)
    (List.replicate n_nodes 0)
  pure r.1

/-- The merged output mesh, as handed to the exodusIIcpp writer. -/
structure OutFile where
  dim : Int
  n_nodes : Nat
  n_elems : Nat
  n_elem_blks : Nat
  xc : List ℚ
  yc : List ℚ
  zc : List ℚ
  out_blocks : List (Int × String × Nat × List Int)
  var_names : List String
  times : List ℚ
  var_vals : List (List (List ℚ))
deriving DecidableEq, Repr, Inhabited

/-- The element-count loop before `ex_out.init` (lines 325-329):
`block_connect[blk_id].size() / num_nodes_per_elem[blk_id]` summed over all
block ids, both maps read with the default-constructing `operator[]`. -/
def count_elems (st : JoinState) : Except Outcome Nat :=
  st.block_ids.foldlM
    (fun acc blk_id => do
      let n ← cppDivNat (alist_getD st.block_connect blk_id []).length
        (alist_getD st.num_nodes_per_elem blk_id 0)
      pure (acc + n))
    0

/-- The write half of `join_files` (lines 321-337): the output file is
created HERE, only after the whole read loop succeeded. -/
def write_phase (st : JoinState) : Except Outcome OutFile := do
  let n_elems ← count_elems st
  let coords ← write_nodes st.dim st.node_map
  let oblocks ← write_elements st.block_ids st.block_element_type st.block_connect
    st.num_nodes_per_elem
  let ovals ← write_nodal_variables st.index_sets st.times st.node_map.length
    st.nodal_var_names st.nodal_vals
  pure
    { dim := st.dim
      n_nodes := st.node_map.length
      n_elems := n_elems
      n_elem_blks := st.block_connect.length
      xc := coords.1
      yc := coords.2.1
      zc := coords.2.2
      out_blocks := oblocks
      var_names := st.nodal_var_names
      times := st.times
      var_vals := ovals }

/-- `join_files`: read all inputs, then write the merged mesh.  An error in
the read phase propagates before the output file exists. -/
def join_files (fs : List ExoFile) : Except Outcome OutFile :=
  read_phase fs >>= write_phase

/-!  Lemmas about the node map. -/

/-- The map component of `emplace`: unchanged when present, else appended. -/
def nm_insert (m : List Point) (p : Point) : List Point :=
  (nm_get_or_insert m p).1

theorem nm_lookup_none_iff (m : List Point) (p : Point) :
    nm_lookup m p = none ↔ p ∉ m := by
  induction m with
  | nil => simp [nm_lookup]
  | cons q m ih =>
      by_cases hpq : p = q
      · simp [nm_lookup, hpq]
      · simp [nm_lookup, hpq, Option.map_eq_none', ih]

theorem nm_lookup_some_lt (m : List Point) (p : Point) (i : Nat)
    (h : nm_lookup m p = some i) : i < m.length := by
  induction m generalizing i with
  | nil => simp [nm_lookup] at h
  | cons q m ih =>
      by_cases hpq : p = q
      · simp [nm_lookup, hpq] at h
        simp only [List.length_cons]
        omega
      · simp only [nm_lookup, hpq, if_false, Option.map_eq_some'] at h
        obtain ⟨j, hj, rfl⟩ := h
        have := ih j hj
        simp only [List.length_cons]
        omega

theorem nm_lookup_get? (m : List Point) (p : Point) (i : Nat)
    (h : nm_lookup m p = some i) : m.get? i = some p := by
  induction m generalizing i with
  | nil => simp [nm_lookup] at h
  | cons q m ih =>
      by_cases hpq : p = q
      · simp [nm_lookup, hpq] at h
        subst h
        simp [hpq]
      · simp only [nm_lookup, hpq, if_false, Option.map_eq_some'] at h
        obtain ⟨j, hj, rfl⟩ := h
        simpa using ih j hj

theorem nm_insert_eq (m : List Point) (p : Point) :
    nm_insert m p = if p ∈ m then m else m ++ [p] := by
  unfold nm_insert nm_get_or_insert
  rcases h : nm_lookup m p with _ | i
  · rw [nm_lookup_none_iff] at h
    simp [h]
  · have : p ∈ m := by
      have := nm_lookup_get? m p i h
      exact List.get?_mem this
    simp [h, this]

theorem nm_insert_toFinset (m : List Point) (p : Point) :
    (nm_insert m p).toFinset = insert p m.toFinset := by
  rw [nm_insert_eq]
  by_cases h : p ∈ m
  · simp [h, Finset.insert_eq_self.mpr (List.mem_toFinset.mpr h)]
  · rw [if_neg h]
    simp [List.toFinset_append, Finset.insert_eq, Finset.union_comm]

theorem nm_insert_nodup (m : List Point) (p : Point) (h : m.Nodup) :
    (nm_insert m p).Nodup := by
  rw [nm_insert_eq]
  by_cases hp : p ∈ m
  · simpa [hp]
  · simp [hp, List.nodup_append, h]

theorem nm_insert_length_le (m : List Point) (p : Point) :
    m.length ≤ (nm_insert m p).length := by
  rw [nm_insert_eq]
  by_cases hp : p ∈ m <;> simp [hp]

theorem nm_insert_get?_stable (m : List Point) (p : Point) (j : Nat)
    (hj : j < m.length) : (nm_insert m p).get? j = m.get? j := by
  rw [nm_insert_eq]
  by_cases hp : p ∈ m
  · simp [hp]
  · simp only [hp, if_false]
    exact List.get?_append hj

theorem nm_fold_toFinset (ps : List Point) (m : List Point) :
    (ps.foldl nm_insert m).toFinset = m.toFinset ∪ ps.toFinset := by
  induction ps generalizing m with
  | nil => simp
  | cons p ps ih =>
      simp only [List.foldl_cons, ih, nm_insert_toFinset, List.toFinset_cons]
      ext q
      simp [or_comm, or_assoc, or_left_comm]

theorem nm_fold_nodup (ps : List Point) (m : List Point) (h : m.Nodup) :
    (ps.foldl nm_insert m).Nodup := by
  induction ps generalizing m with
  | nil => exact h
  | cons p ps ih => exact ih _ (nm_insert_nodup _ _ h)

theorem nm_fold_length_le (ps : List Point) (m : List Point) :
    m.length ≤ (ps.foldl nm_insert m).length := by
  induction ps generalizing m with
  | nil => simp
  | cons p ps ih => exact le_trans (nm_insert_length_le m p) (ih _)

theorem nm_fold_get?_stable (ps : List Point) (m : List Point) (j : Nat)
    (hj : j < m.length) : (ps.foldl nm_insert m).get? j = m.get? j := by
  induction ps generalizing m with
  | nil => rfl
  | cons p ps ih =>
      have h1 : j < (nm_insert m p).length := lt_of_lt_of_le hj (nm_insert_length_le m p)
      simp only [List.foldl_cons]
      rw [ih _ h1, nm_insert_get?_stable m p j hj]

/-!  Lemmas about `read_file_nodes`. -/

theorem rfn_fst (ps : List Point) (m : List Point) :
    (read_file_nodes m ps).1 = (ps.map (snap_point · SNAP_TOLERANCE)).foldl nm_insert m := by
  induction ps generalizing m with
  | nil => rfl
  | cons p ps ih =>
      simp only [read_file_nodes, List.map_cons, List.foldl_cons]
      exact ih _

theorem rfn_snd_length (ps : List Point) (m : List Point) :
    (read_file_nodes m ps).2.length = ps.length := by
  induction ps generalizing m with
  | nil => rfl
  | cons p ps ih => simp [read_file_nodes, ih]

theorem rfn_ids_lt (ps : List Point) (m : List Point) :
    ∀ i ∈ (read_file_nodes m ps).2, i < (read_file_nodes m ps).1.length := by
  induction ps generalizing m with
  | nil => simp [read_file_nodes]
  | cons p ps ih =>
      intro i hi
      simp only [read_file_nodes, List.mem_cons] at hi
      rcases hi with hi | hi
      · subst hi
        have hlen : ((read_file_nodes (nm_insert m (snap_point p SNAP_TOLERANCE)) ps).1).length
            ≥ (nm_insert m (snap_point p SNAP_TOLERANCE)).length := by
          rw [rfn_fst]
          exact nm_fold_length_le _ _
        unfold nm_insert at hlen
        rcases h : nm_lookup m (snap_point p SNAP_TOLERANCE) with _ | i₀
        · simp only [read_file_nodes, nm_get_or_insert, h]
          simp only [nm_get_or_insert, h] at hlen
          simp only [List.length_append, List.length_cons, List.length_nil] at hlen
          omega
        · have hi₀ := nm_lookup_some_lt m _ i₀ h
          simp only [read_file_nodes, nm_get_or_insert, h]
          simp only [nm_get_or_insert, h] at hlen
          omega
      · simpa [read_file_nodes] using ih _ i hi

theorem rfn_cover (ps : List Point) (m : List Point) :
    ∀ j < (read_file_nodes m ps).1.length,
      j < m.length ∨ j ∈ (read_file_nodes m ps).2 := by
  induction ps generalizing m with
  | nil => intro j hj; exact Or.inl hj
  | cons p ps ih =>
      intro j hj
      simp only [read_file_nodes] at hj ⊢
      rcases ih (nm_insert m (snap_point p SNAP_TOLERANCE)) j (by
        simpa [read_file_nodes, nm_insert] using hj) with h | h
      · unfold nm_insert at h
        rcases hl : nm_lookup m (snap_point p SNAP_TOLERANCE) with _ | i₀
        · simp only [nm_get_or_insert, hl, List.length_append, List.length_cons,
            List.length_nil] at h
          rcases Nat.lt_or_ge j m.length with h' | h'
          · exact Or.inl h'
          · have : j = m.length := by omega
            subst this
            exact Or.inr (by simp [nm_get_or_insert, hl, nm_insert])
        · simp only [nm_get_or_insert, hl] at h
          exact Or.inl h
      · exact Or.inr (by simp [nm_insert] at h ⊢; exact Or.inr h)

/-!  Structural lemmas about the read loop. -/

/-- This file's points after quantization, in local-node order. -/
def snapped_file_points (f : ExoFile) : List Point :=
  (file_points f f.dim).map (snap_point · SNAP_TOLERANCE)

/-- All files' quantized points, in file-processing order. -/
def all_snapped_points (fs : List ExoFile) : List Point :=
  (fs.map snapped_file_points).join

/-- Success shape of one read-loop iteration. -/
theorem process_file_ok {st : JoinState} {f : ExoFile} {st' : JoinState}
    (h : process_file st f = .ok st') :
    ∃ bet bconn,
      read_element_types f = .ok bet ∧
      (f.dim = 2 ∨ f.dim = 3) ∧
      merge_blocks (read_file_nodes st.node_map (file_points f f.dim)).2
        (read_elements st.num_nodes_per_elem f).2 st.block_connect = .ok bconn ∧
      st' = { dim := f.dim,
              node_map := (read_file_nodes st.node_map (file_points f f.dim)).1,
              index_sets :=
                st.index_sets ++ [(read_file_nodes st.node_map (file_points f f.dim)).2],
              block_ids := read_block_ids f st.block_ids,
              block_element_type := bet,
              block_connect := bconn,
              num_nodes_per_elem := (read_elements st.num_nodes_per_elem f).1,
              nodal_var_names := f.nodalVarNames,
              times := f.times,
              nodal_vals := st.nodal_vals ++ [read_nodal_vals f] } := by
  unfold process_file at h
  cases h1 : read_element_types f with
  | error e => rw [h1] at h; simp [Bind.bind, Except.bind] at h
  | ok bet =>
      rw [h1] at h
      by_cases hdim : f.dim = 2 ∨ f.dim = 3
      · rw [show read_file f f.dim st.node_map
              = .ok (read_file_nodes st.node_map (file_points f f.dim)) by
            simp [read_file, hdim]] at h
        simp only [Bind.bind, Except.bind] at h
        cases h2 : merge_blocks (read_file_nodes st.node_map (file_points f f.dim)).2
            (read_elements st.num_nodes_per_elem f).2 st.block_connect with
        | error e => rw [h2] at h; simp at h
        | ok bconn =>
            rw [h2] at h
            simp only [pure, Except.pure, Except.ok.injEq] at h
            exact ⟨bet, bconn, rfl, hdim, rfl, h.symm⟩
      · rw [show read_file f f.dim st.node_map
              = .error (.raised (.UnsupportedDimension f.dim)) by
            simp [read_file, hdim]] at h
        simp [Bind.bind, Except.bind] at h

/-- A failing iteration means no success of the whole loop (bind shape). -/
theorem foldlM_cons_ok {α : Type} {g : JoinState → α → Except Outcome JoinState}
    {x : α} {xs : List α} {st0 st : JoinState}
    (h : (x :: xs).foldlM g st0 = .ok st) :
    ∃ st1, g st0 x = .ok st1 ∧ xs.foldlM g st1 = .ok st := by
  rw [List.foldlM_cons] at h
  cases h1 : g st0 x with
  | error e => rw [h1] at h; simp [Bind.bind, Except.bind] at h
  | ok st1 => rw [h1] at h; simp only [Bind.bind, Except.bind] at h; exact ⟨st1, rfl, h⟩

theorem read_phase_go_node_map (fs : List ExoFile) (st0 st : JoinState)
    (h : fs.foldlM process_file st0 = .ok st) :
    st.node_map = (all_snapped_points fs).foldl nm_insert st0.node_map := by
  induction fs generalizing st0 with
  | nil =>
      simp only [List.foldlM_nil, pure, Except.pure, Except.ok.injEq] at h
      simp [h, all_snapped_points]
  | cons f fs ih =>
      obtain ⟨st1, h1, h2⟩ := foldlM_cons_ok h
      obtain ⟨bet, bconn, _, _, _, hst1⟩ := process_file_ok h1
      rw [ih st1 h2, hst1]
      simp only [all_snapped_points, snapped_file_points, List.join, List.map_cons,
        List.flatten_cons, List.foldl_append, rfn_fst]

theorem read_phase_node_map (fs : List ExoFile) (st : JoinState)
    (h : read_phase fs = .ok st) :
    st.node_map = (all_snapped_points fs).foldl nm_insert [] :=
  read_phase_go_node_map fs init_state st h

/-- Every stored global id is below the current node count. -/
def ids_bound (st : JoinState) : Prop :=
  ∀ is ∈ st.index_sets, ∀ i ∈ is, i < st.node_map.length

/-- Every global id below the current node count occurs in some file's index
set: the files jointly cover the whole merged node range. -/
def ids_cover (st : JoinState) : Prop :=
  ∀ j < st.node_map.length, ∃ is ∈ st.index_sets, j ∈ is

theorem read_phase_go_inv (fs : List ExoFile) (st0 st : JoinState)
    (h : fs.foldlM process_file st0 = .ok st)
    (hb : ids_bound st0) (hc : ids_cover st0) : ids_bound st ∧ ids_cover st := by
  induction fs generalizing st0 with
  | nil =>
      simp only [List.foldlM_nil, pure, Except.pure, Except.ok.injEq] at h
      exact h ▸ ⟨hb, hc⟩
  | cons f fs ih =>
      obtain ⟨st1, h1, h2⟩ := foldlM_cons_ok h
      obtain ⟨bet, bconn, _, _, _, hst1⟩ := process_file_ok h1
      have hmono : st0.node_map.length
          ≤ (read_file_nodes st0.node_map (file_points f f.dim)).1.length := by
        rw [rfn_fst]
        exact nm_fold_length_le _ _
      refine ih st1 h2 ?_ ?_
      · intro is his i hi
        rw [hst1] at his ⊢
        simp only [List.mem_append, List.mem_singleton] at his
        rcases his with his | his
        · exact lt_of_lt_of_le (hb is his i hi) hmono
        · subst his
          exact rfn_ids_lt _ _ i hi
      · intro j hj
        rw [hst1] at hj ⊢
        rcases rfn_cover (file_points f f.dim) st0.node_map j hj with h' | h'
        · obtain ⟨is, his, hjis⟩ := hc j h'
          exact ⟨is, by simp [his], hjis⟩
        · exact ⟨_, by simp, h'⟩

theorem read_phase_go_nodal_vals (fs : List ExoFile) (st0 st : JoinState)
    (h : fs.foldlM process_file st0 = .ok st) :
    st.nodal_vals = st0.nodal_vals ++ fs.map read_nodal_vals := by
  induction fs generalizing st0 with
  | nil =>
      simp only [List.foldlM_nil, pure, Except.pure, Except.ok.injEq] at h
      simp [h]
  | cons f fs ih =>
      obtain ⟨st1, h1, h2⟩ := foldlM_cons_ok h
      obtain ⟨bet, bconn, _, _, _, hst1⟩ := process_file_ok h1
      rw [ih st1 h2, hst1]
      simp

theorem read_phase_go_index_sets (fs : List ExoFile) (st0 st : JoinState)
    (h : fs.foldlM process_file st0 = .ok st) :
    ∃ new, st.index_sets = st0.index_sets ++ new ∧
      List.Forall₂ (fun f is => List.length is = (file_points f f.dim).length) fs new := by
  induction fs generalizing st0 with
  | nil =>
      simp only [List.foldlM_nil, pure, Except.pure, Except.ok.injEq] at h
      subst h
      exact ⟨[], by simp, List.Forall₂.nil⟩
  | cons f fs ih =>
      obtain ⟨st1, h1, h2⟩ := foldlM_cons_ok h
      obtain ⟨bet, bconn, _, _, _, hst1⟩ := process_file_ok h1
      obtain ⟨new, hnew, hf2⟩ := ih st1 h2
      refine ⟨(read_file_nodes st0.node_map (file_points f f.dim)).2 :: new, ?_, ?_⟩
      · rw [hnew, hst1]
        simp
      · exact List.Forall₂.cons (rfn_snd_length _ _) hf2

/-!  Lemmas about `scatter` and the nodal-variable write loop. -/

/-- The sequence of raw writes `dest[idx[i]] = src[i]` as a pure fold. -/
def setFold (ps : List (ℚ × Nat)) (b : List ℚ) : List ℚ :=
  ps.foldl (fun d vi => d.set vi.2 vi.1) b

/-- `scatter` without the error monad (valid when all indices are in range). -/
def scatterT (src : List ℚ) (idx : List Nat) (dest : List ℚ) : List ℚ :=
  setFold (src.zip idx) dest

theorem setFold_length (ps : List (ℚ × Nat)) (b : List ℚ) :
    (setFold ps b).length = b.length := by
  induction ps generalizing b with
  | nil => rfl
  | cons p ps ih =>
      simp only [setFold, List.foldl_cons] at ih ⊢
      rw [ih (b.set p.2 p.1), List.length_set]

theorem setFold_get?_congr (ps : List (ℚ × Nat)) (b₁ b₂ : List ℚ) (j : Nat)
    (hlen : b₁.length = b₂.length) (hj : b₁.get? j = b₂.get? j) :
    (setFold ps b₁).get? j = (setFold ps b₂).get? j := by
  induction ps generalizing b₁ b₂ with
  | nil => exact hj
  | cons p ps ih =>
      simp only [setFold, List.foldl_cons] at ih ⊢
      refine ih _ _ (by simp [hlen]) ?_
      rw [List.get?_set, List.get?_set]
      by_cases hpk : p.2 = j
      · rw [if_pos hpk, if_pos hpk, hj]
      · rw [if_neg hpk, if_neg hpk, hj]

/-- A position written by some pair ends up independent of the initial
buffer contents. -/
theorem setFold_written (ps : List (ℚ × Nat)) (b₁ b₂ : List ℚ) (j : Nat)
    (hlen : b₁.length = b₂.length) (hj : j ∈ ps.map Prod.snd) :
    (setFold ps b₁).get? j = (setFold ps b₂).get? j := by
  induction ps generalizing b₁ b₂ with
  | nil => simp at hj
  | cons p ps ih =>
      simp only [List.map_cons, List.mem_cons] at hj
      simp only [setFold, List.foldl_cons] at ih ⊢
      rcases hj with hj | hj
      · refine setFold_get?_congr ps _ _ j (by simp [hlen]) ?_
        rw [List.get?_set, List.get?_set, if_pos hj.symm, if_pos hj.symm]
        cases h₁ : b₁.get? j with
        | none =>
            have h₂ : b₂.get? j = none := by
              rw [List.get?_eq_none] at h₁ ⊢
              omega
            rw [h₂]
        | some a =>
            have hlt : j < b₁.length := by
              by_contra h'
              rw [List.get?_eq_none.mpr (by omega)] at h₁
              exact absurd h₁ (by simp)
            have hlt₂ : j < b₂.length := hlen ▸ hlt
            cases h₃ : b₂.get? j with
            | none =>
                rw [List.get?_eq_none] at h₃
                omega
            | some a' => simp
      · exact ih _ _ (by simp [hlen]) hj

theorem scatterT_length (src : List ℚ) (idx : List Nat) (dest : List ℚ) :
    (scatterT src idx dest).length = dest.length :=
  setFold_length _ _

theorem vset_fold_ok (ps : List (ℚ × Nat)) (dest : List ℚ)
    (h : ∀ vi ∈ ps, vi.2 < dest.length) :
    ps.foldlM (fun d vi => vset d vi.2 vi.1) dest = .ok (setFold ps dest) := by
  induction ps generalizing dest with
  | nil => simp [List.foldlM_nil, setFold, pure, Except.pure]
  | cons p ps ih =>
      rw [List.foldlM_cons]
      rw [show vset dest p.2 p.1 = .ok (dest.set p.2 p.1) from by
        simp [vset, h p (by simp)]]
      simp only [Bind.bind, Except.bind]
      rw [ih (dest.set p.2 p.1) (fun vi hvi => by
        rw [List.length_set]
        exact h vi (by simp [hvi]))]
      rfl

theorem scatter_ok (src : List ℚ) (idx : List Nat) (dest : List ℚ)
    (hlen : src.length = idx.length) (hb : ∀ k ∈ idx, k < dest.length) :
    scatter src idx dest = .ok (scatterT src idx dest) := by
  unfold scatter scatterT
  rw [if_neg (by simp [hlen])]
  exact vset_fold_ok _ _ fun vi hvi => hb vi.2 (List.of_mem_zip hvi).2

/-- The per-`(t, v)` scatter of all files, as a pure fold over
(file values, index set) pairs.  This is also the shape the spec describes
in §4.6, there starting from an all-zero array. -/
def filesFoldT (pairs : List (List (List (List ℚ)) × List Nat)) (t v : Nat)
    (b : List ℚ) : List ℚ :=
  pairs.foldl (fun arr p => scatterT ((p.1.getD t []).getD v []) p.2 arr) b

/-- Modelled from the spec (§4.6): for one timestep and variable, start from
an all-zero array of global size and, for each file in processing order,
write each of that file's local values at the position given by its index
set; later writes win, untouched positions stay zero. -/
def spec_scatter_from_zero (vvs : List (List (List (List ℚ)))) (iss : List (List Nat))
    (t v n : Nat) : List ℚ :=
  filesFoldT (vvs.zip iss) t v (List.replicate n 0)

theorem filesFoldT_length (pairs : List (List (List (List ℚ)) × List Nat)) (t v : Nat)
    (b : List ℚ) : (filesFoldT pairs t v b).length = b.length := by
  induction pairs generalizing b with
  | nil => rfl
  | cons p pairs ih =>
      simp only [filesFoldT, List.foldl_cons] at ih ⊢
      rw [ih, scatterT_length]

theorem filesFoldT_get?_congr (pairs : List (List (List (List ℚ)) × List Nat)) (t v : Nat)
    (b₁ b₂ : List ℚ) (j : Nat) (hlen : b₁.length = b₂.length)
    (hj : b₁.get? j = b₂.get? j) :
    (filesFoldT pairs t v b₁).get? j = (filesFoldT pairs t v b₂).get? j := by
  induction pairs generalizing b₁ b₂ with
  | nil => exact hj
  | cons p pairs ih =>
      simp only [filesFoldT, List.foldl_cons] at ih ⊢
      exact ih _ _ (by rw [scatterT_length, scatterT_length, hlen])
        (setFold_get?_congr _ _ _ _ hlen hj)

/-- A position covered by some file's index set (with matching value-array
length) ends up independent of the initial buffer contents. -/
theorem filesFoldT_covered (pairs : List (List (List (List ℚ)) × List Nat)) (t v : Nat)
    (b₁ b₂ : List ℚ) (j : Nat) (hlen : b₁.length = b₂.length)
    (hcov : ∃ p ∈ pairs, j ∈ p.2 ∧ ((p.1.getD t []).getD v []).length = p.2.length) :
    (filesFoldT pairs t v b₁).get? j = (filesFoldT pairs t v b₂).get? j := by
  induction pairs generalizing b₁ b₂ with
  | nil => simp at hcov
  | cons q pairs ih =>
      obtain ⟨p, hpmem, hjp, hplen⟩ := hcov
      simp only [List.mem_cons] at hpmem
      simp only [filesFoldT, List.foldl_cons] at ih ⊢
      rcases hpmem with rfl | hpmem
      · refine filesFoldT_get?_congr _ _ _ _ _ _
          (by rw [scatterT_length, scatterT_length, hlen]) ?_
        refine setFold_written _ _ _ _ hlen ?_
        rw [List.map_snd_zip _ _ (le_of_eq hplen.symm)]
        exact hjp
      · exact ih _ _ (by rw [scatterT_length, scatterT_length, hlen]) ⟨p, hpmem, hjp, hplen⟩

/-- Success and shape conditions for one (file values, index set) pair at one
`(t, v)`: the value grid has an entry there, its length matches the index
set, and all indices are below the global node count. -/
def pair_ok (t v n : Nat) (p : List (List (List ℚ)) × List Nat) : Prop :=
  ∃ row vals, p.1.get? t = some row ∧ row.get? v = some vals ∧
    vals.length = p.2.length ∧ ∀ k ∈ p.2, k < n

theorem scatter_files_eq (iss : List (List Nat)) (t v n : Nat)
    (vvs : List (List (List (List ℚ)))) :
    ∀ (fi : Nat) (buf : List ℚ), buf.length = n →
      vvs.length + fi ≤ iss.length →
      (∀ p ∈ vvs.zip (iss.drop fi), pair_ok t v n p) →
      scatter_files vvs iss t v fi buf = .ok (filesFoldT (vvs.zip (iss.drop fi)) t v buf) := by
  induction vvs with
  | nil =>
      intro fi buf _ _ _
      simp [scatter_files, filesFoldT]
  | cons nv rest ih =>
      intro fi buf hbuf hle hp
      have hfi : fi < iss.length := by
        simp only [List.length_cons] at hle
        omega
      have hdrop : iss.drop fi = iss.get ⟨fi, hfi⟩ :: iss.drop (fi + 1) :=
        List.drop_eq_get_cons hfi
      have hpair := hp (nv, iss.get ⟨fi, hfi⟩) (by rw [hdrop, List.zip_cons_cons]; simp)
      simp only [pair_ok] at hpair
      obtain ⟨row, vals, hrow, hvals, hplen, hbnd⟩ := hpair
      simp only [scatter_files]
      rw [show vget2 nv t v = Except.ok vals from by
        simp only [vget2, vget, ← List.get?_eq_getElem?]
        rw [hrow]
        simp only [Bind.bind, Except.bind]
        rw [hvals]]
      rw [show iss.get? fi = some (iss.get ⟨fi, hfi⟩) from List.get?_eq_get hfi]
      simp only [Bind.bind, Except.bind]
      rw [scatter_ok vals (iss.get ⟨fi, hfi⟩) buf hplen (fun k hk => hbuf ▸ hbnd k hk)]
      show scatter_files rest iss t v (fi + 1) (scatterT vals (iss.get ⟨fi, hfi⟩) buf)
          = Except.ok (filesFoldT ((nv :: rest).zip (List.drop fi iss)) t v buf)
      rw [ih (fi + 1) (scatterT vals (iss.get ⟨fi, hfi⟩) buf)
        (by rw [scatterT_length]; exact hbuf)
        (by simp only [List.length_cons] at hle; omega)
        (fun p hpm => hp p (by rw [hdrop, List.zip_cons_cons]; simp [hpm]))]
      rw [hdrop]
      simp only [List.zip_cons_cons, filesFoldT, List.foldl_cons]
      rw [show (nv.getD t []).getD v [] = vals from by
        rw [List.getD_eq_get? nv t, hrow]
        simp only [Option.getD_some]
        rw [List.getD_eq_get? row v, hvals]
        rfl]

/-- The reused buffer does not matter: when the index sets jointly cover
every global position, the per-`(t, v)` output equals the scatter from an
all-zero buffer. -/
theorem filesFoldT_of_cover (pairs : List (List (List (List ℚ)) × List Nat)) (t v n : Nat)
    (buf : List ℚ) (hbuf : buf.length = n)
    (hcov : ∀ j < n, ∃ p ∈ pairs, j ∈ p.2)
    (hok : ∀ p ∈ pairs, pair_ok t v n p) :
    filesFoldT pairs t v buf = filesFoldT pairs t v (List.replicate n 0) := by
  apply List.ext
  intro j
  rcases Nat.lt_or_ge j n with hj | hj
  · obtain ⟨p, hpmem, hjp⟩ := hcov j hj
    obtain ⟨row, vals, hrow, hvals, hplen, _⟩ := hok p hpmem
    refine filesFoldT_covered pairs t v _ _ j (by simp [hbuf]) ⟨p, hpmem, hjp, ?_⟩
    rw [List.getD_eq_get? p.1 t, hrow]
    simp only [Option.getD_some]
    rw [List.getD_eq_get? row v, hvals]
    exact hplen
  · rw [List.get?_eq_none.mpr, List.get?_eq_none.mpr]
    · rw [filesFoldT_length]
      simp
      omega
    · rw [filesFoldT_length]
      omega

theorem wnv_vars_eq (vvs : List (List (List (List ℚ)))) (iss : List (List Nat))
    (t n : Nat) (hliss : vvs.length ≤ iss.length)
    (hcov : ∀ j < n, ∃ p ∈ vvs.zip iss, j ∈ p.2) :
    ∀ (vlist : List Nat) (buf : List ℚ), buf.length = n →
      (∀ v ∈ vlist, ∀ p ∈ vvs.zip iss, pair_ok t v n p) →
      ∃ bufF, bufF.length = n ∧
        wnv_vars vvs iss t vlist buf
          = .ok (vlist.map fun v => spec_scatter_from_zero vvs iss t v n, bufF) := by
  intro vlist
  induction vlist with
  | nil =>
      intro buf hbuf _
      exact ⟨buf, hbuf, rfl⟩
  | cons v vrest ih =>
      intro buf hbuf hok
      have hsf := scatter_files_eq iss t v n vvs 0 buf hbuf (by omega)
        (by rw [List.drop_zero]; exact hok v (by simp))
      rw [List.drop_zero] at hsf
      have hBlen : (filesFoldT (vvs.zip iss) t v buf).length = n := by
        rw [filesFoldT_length]
        exact hbuf
      have hBzero : filesFoldT (vvs.zip iss) t v buf = spec_scatter_from_zero vvs iss t v n :=
        filesFoldT_of_cover _ t v n buf hbuf hcov (hok v (by simp))
      obtain ⟨bufF, hlenF, hrec⟩ := ih (filesFoldT (vvs.zip iss) t v buf) hBlen
        (fun v' hv' => hok v' (by simp [hv']))
      refine ⟨bufF, hlenF, ?_⟩
      simp only [wnv_vars]
      rw [hsf]
      simp only [Bind.bind, Except.bind]
      rw [hrec]
      simp only [pure, Except.pure, List.map_cons, Except.ok.injEq]
      rw [hBzero]

theorem wnv_times_eq (vvs : List (List (List (List ℚ)))) (iss : List (List Nat))
    (nvars n : Nat) (hliss : vvs.length ≤ iss.length)
    (hcov : ∀ j < n, ∃ p ∈ vvs.zip iss, j ∈ p.2) :
    ∀ (tlist : List Nat) (buf : List ℚ), buf.length = n →
      (∀ t ∈ tlist, ∀ v ∈ List.range nvars, ∀ p ∈ vvs.zip iss, pair_ok t v n p) →
      ∃ bufF, bufF.length = n ∧
        wnv_times vvs iss nvars tlist buf = .ok
          (tlist.map fun t =>
            (List.range nvars).map fun v => spec_scatter_from_zero vvs iss t v n, bufF) := by
  intro tlist
  induction tlist with
  | nil =>
      intro buf hbuf _
      exact ⟨buf, hbuf, rfl⟩
  | cons t trest ih =>
      intro buf hbuf hok
      obtain ⟨buf1, hlen1, h1⟩ := wnv_vars_eq vvs iss t n hliss hcov (List.range nvars) buf
        hbuf (hok t (by simp))
      obtain ⟨bufF, hlenF, hrec⟩ := ih buf1 hlen1 (fun t' ht' => hok t' (by simp [ht']))
      refine ⟨bufF, hlenF, ?_⟩
      simp only [wnv_times]
      rw [h1]
      simp only [Bind.bind, Except.bind]
      rw [hrec]
      simp [pure, Except.pure]

/-- `write_nodal_variables` computes, for every timestep and variable, the
spec's scatter-from-zero result (given coverage and well-formed sizes). -/
theorem write_nodal_variables_eq (iss : List (List Nat)) (times : List ℚ) (n : Nat)
    (var_names : List String) (vvs : List (List (List (List ℚ))))
    (hliss : vvs.length ≤ iss.length)
    (hcov : ∀ j < n, ∃ p ∈ vvs.zip iss, j ∈ p.2)
    (hok : ∀ t ∈ List.range times.length, ∀ v ∈ List.range var_names.length,
      ∀ p ∈ vvs.zip iss, pair_ok t v n p) :
    write_nodal_variables iss times n var_names vvs = .ok
      ((List.range times.length).map fun t =>
        (List.range var_names.length).map fun v => spec_scatter_from_zero vvs iss t v n) := by
  obtain ⟨bufF, _, h⟩ := wnv_times_eq vvs iss var_names.length n hliss hcov
    (List.range times.length) (List.replicate n 0) (by simp) hok
  unfold write_nodal_variables
  rw [h]
  rfl

/-!  Structural lemmas about the write phase and the full join. -/

theorem alist_at_ok {α : Type} (m : List (Int × α)) (k : Int) (v : α) :
    alist_at m k = .ok v ↔ alist_lookup m k = some v := by
  unfold alist_at
  cases h : alist_lookup m k <;> simp

theorem alist_at_err {α : Type} (m : List (Int × α)) (k : Int)
    (h : alist_lookup m k = none) :
    alist_at m k = .error (.raised (.MapOutOfRange k)) := by
  unfold alist_at
  rw [h]

/-- Members of a successful `mapM` image come from members of the source. -/
theorem mapM_ok_mem {α β : Type} (f : α → Except Outcome β) :
    ∀ (l : List α) (ys : List β), l.mapM f = .ok ys →
      ∀ y ∈ ys, ∃ x ∈ l, f x = .ok y := by
  intro l
  induction l with
  | nil =>
      intro ys h y hy
      simp only [List.mapM_nil, pure, Except.pure, Except.ok.injEq] at h
      subst h
      simp at hy
  | cons x xs ih =>
      intro ys h y hy
      rw [List.mapM_cons] at h
      cases h1 : f x with
      | error e => rw [h1] at h; simp [Bind.bind, Except.bind] at h
      | ok b =>
          rw [h1] at h
          simp only [Bind.bind, Except.bind] at h
          cases h2 : xs.mapM f with
          | error e => rw [h2] at h; simp at h
          | ok bs =>
              rw [h2] at h
              simp only [pure, Except.pure, Except.ok.injEq] at h
              subst h
              simp only [List.mem_cons] at hy
              rcases hy with rfl | hy
              · exact ⟨x, by simp, h1⟩
              · obtain ⟨x', hx', hfx'⟩ := ih bs h2 y hy
                exact ⟨x', by simp [hx'], hfx'⟩

/-- A successful `mapM` evaluates its function successfully on every member
of the source list. -/
theorem mapM_ok_forall {α β : Type} (f : α → Except Outcome β) :
    ∀ (l : List α) (ys : List β), l.mapM f = .ok ys →
      ∀ x ∈ l, ∃ y, f x = .ok y := by
  intro l
  induction l with
  | nil => intro ys _ x hx; simp at hx
  | cons x xs ih =>
      intro ys h x' hx'
      rw [List.mapM_cons] at h
      cases h1 : f x with
      | error e => rw [h1] at h; simp [Bind.bind, Except.bind] at h
      | ok b =>
          rw [h1] at h
          simp only [Bind.bind, Except.bind] at h
          cases h2 : xs.mapM f with
          | error e => rw [h2] at h; simp at h
          | ok bs =>
              simp only [List.mem_cons] at hx'
              rcases hx' with rfl | hx'
              · exact ⟨b, h1⟩
              · exact ih bs h2 x' hx'

/-- The body of `write_elements` for one block id. -/
def write_one_block (bet : List (Int × ElementType)) (bconn : List (Int × List Int))
    (nnpe : List (Int × Nat)) (blk_id : Int) : Except Outcome (Int × String × Nat × List Int) := do
  let conn ← alist_at bconn blk_id
  let n ← cppDivNat conn.length (alist_getD nnpe blk_id 0)
  let et ← alist_at bet blk_id
  let ets ← element_type_str et
  pure (blk_id, ets, n, conn)

theorem write_elements_eq (block_ids : List Int) (bet : List (Int × ElementType))
    (bconn : List (Int × List Int)) (nnpe : List (Int × Nat)) :
    write_elements block_ids bet bconn nnpe
      = block_ids.mapM (write_one_block bet bconn nnpe) := rfl

/-- A successful `write_one_block` looked the element type up in `bet`. -/
theorem write_one_block_ok (bet : List (Int × ElementType)) (bconn : List (Int × List Int))
    (nnpe : List (Int × Nat)) (blk_id : Int) (ob : Int × String × Nat × List Int)
    (h : write_one_block bet bconn nnpe blk_id = .ok ob) :
    ob.1 = blk_id ∧ ∃ et, alist_lookup bet blk_id = some et ∧
      element_type_str et = .ok ob.2.1 := by
  unfold write_one_block at h
  cases h1 : alist_at bconn blk_id with
  | error e => rw [h1] at h; simp [Bind.bind, Except.bind] at h
  | ok conn =>
      rw [h1] at h
      simp only [Bind.bind, Except.bind] at h
      cases h2 : cppDivNat conn.length (alist_getD nnpe blk_id 0) with
      | error e => rw [h2] at h; simp at h
      | ok n =>
          rw [h2] at h
          simp only [] at h
          cases h3 : alist_at bet blk_id with
          | error e => rw [h3] at h; simp at h
          | ok et =>
              rw [h3] at h
              simp only [] at h
              cases h4 : element_type_str et with
              | error e => rw [h4] at h; simp at h
              | ok ets =>
                  rw [h4] at h
                  simp only [pure, Except.pure, Except.ok.injEq] at h
                  subst h
                  exact ⟨rfl, et, (alist_at_ok _ _ _).mp h3, h4⟩

/-- A successful `write_elements` found every block id in the element-type
table. -/
theorem write_elements_ok_lookup (block_ids : List Int) (bet : List (Int × ElementType))
    (bconn : List (Int × List Int)) (nnpe : List (Int × Nat))
    (obs : List (Int × String × Nat × List Int))
    (h : write_elements block_ids bet bconn nnpe = .ok obs) :
    ∀ id ∈ block_ids, (alist_lookup bet id).isSome := by
  intro id hid
  rw [write_elements_eq] at h
  obtain ⟨ob, hob⟩ := mapM_ok_forall _ _ _ h id hid
  obtain ⟨_, et, hlook, _⟩ := write_one_block_ok _ _ _ _ _ hob
  simp [hlook]

/-- Success shape of the write phase. -/
theorem write_phase_ok {st : JoinState} {out : OutFile}
    (h : write_phase st = .ok out) :
    ∃ ne coords oblocks ovals,
      count_elems st = .ok ne ∧
      write_nodes st.dim st.node_map = .ok coords ∧
      write_elements st.block_ids st.block_element_type st.block_connect
        st.num_nodes_per_elem = .ok oblocks ∧
      write_nodal_variables st.index_sets st.times st.node_map.length
        st.nodal_var_names st.nodal_vals = .ok ovals ∧
      out = { dim := st.dim, n_nodes := st.node_map.length, n_elems := ne,
              n_elem_blks := st.block_connect.length,
              xc := coords.1, yc := coords.2.1, zc := coords.2.2,
              out_blocks := oblocks, var_names := st.nodal_var_names,
              times := st.times, var_vals := ovals } := by
  unfold write_phase at h
  cases h1 : count_elems st with
  | error e => rw [h1] at h; simp [Bind.bind, Except.bind] at h
  | ok ne =>
      rw [h1] at h
      simp only [Bind.bind, Except.bind] at h
      cases h2 : write_nodes st.dim st.node_map with
      | error e => rw [h2] at h; simp at h
      | ok coords =>
          rw [h2] at h
          cases h3 : write_elements st.block_ids st.block_element_type st.block_connect
              st.num_nodes_per_elem with
          | error e => rw [h3] at h; simp at h
          | ok oblocks =>
              rw [h3] at h
              cases h4 : write_nodal_variables st.index_sets st.times st.node_map.length
                  st.nodal_var_names st.nodal_vals with
              | error e => rw [h4] at h; simp at h
              | ok ovals =>
                  rw [h4] at h
                  simp only [pure, Except.pure, Except.ok.injEq] at h
                  exact ⟨ne, coords, oblocks, ovals, rfl, rfl, rfl, rfl, h.symm⟩

theorem read_phase_append (gs : List ExoFile) (g : ExoFile) :
    read_phase (gs ++ [g]) = read_phase gs >>= fun st => process_file st g := by
  unfold read_phase
  rw [List.foldlM_append]
  simp [List.foldlM_cons, List.foldlM_nil]

/-- After a successful read loop, the element-type table, the variable
names, the time values and the dimension all come from the LAST file. -/
theorem read_phase_last (gs : List ExoFile) (g : ExoFile) (st : JoinState)
    (h : read_phase (gs ++ [g]) = .ok st) :
    read_element_types g = .ok st.block_element_type ∧
    st.nodal_var_names = g.nodalVarNames ∧ st.times = g.times ∧ st.dim = g.dim := by
  rw [read_phase_append] at h
  cases h0 : read_phase gs with
  | error e => rw [h0] at h; simp [Bind.bind, Except.bind] at h
  | ok st0 =>
      rw [h0] at h
      simp only [Bind.bind, Except.bind] at h
      obtain ⟨bet, bconn, hbet, _, _, hst⟩ := process_file_ok h
      rw [hst]
      exact ⟨hbet, rfl, rfl, rfl⟩

/-- A read-phase error propagates unchanged out of `join_files`, before any
output value exists. -/
theorem join_files_read_error (fs : List ExoFile) (e : Outcome)
    (h : read_phase fs = .error e) : join_files fs = .error e := by
  unfold join_files
  rw [h]
  rfl

/-- A successful join presupposes a fully successful read phase. -/
theorem join_files_ok_read (fs : List ExoFile) (out : OutFile)
    (h : join_files fs = .ok out) :
    ∃ st, read_phase fs = .ok st ∧ write_phase st = .ok out := by
  unfold join_files at h
  cases h0 : read_phase fs with
  | error e => rw [h0] at h; simp [Bind.bind, Except.bind] at h
  | ok st =>
      rw [h0] at h
      exact ⟨st, rfl, h⟩

/-!  Lemmas about `remap_connectivity`. -/

theorem vgetI_ok {α : Type} (l : List α) (i : Int) (a : α)
    (h : vgetI l i = .ok a) : 0 ≤ i ∧ i.toNat < l.length := by
  unfold vgetI at h
  split at h
  · assumption
  · simp at h

theorem vgetI_error {α : Type} (l : List α) (i : Int) (o : Outcome)
    (h : vgetI l i = .error o) : o = .undefinedBehavior := by
  unfold vgetI at h
  split at h
  · simp at h
  · simp only [Except.error.injEq] at h
    exact h.symm

theorem remap_one_ok (is : List Nat) (e : Int) (h1 : 1 ≤ e)
    (h2 : (e - 1).toNat < is.length) :
    remap_one is e = .ok ((is.getD (e - 1).toNat 0 : Int) + 1) := by
  have h0 : (0 : Int) ≤ e - 1 := by omega
  unfold remap_one vgetI
  rw [dif_pos ⟨h0, h2⟩]
  simp only [Bind.bind, Except.bind, pure, Except.pure, Except.ok.injEq]
  simp only [List.getD_eq_get?, List.get?_eq_get h2, Option.getD_some]

theorem remap_one_error (is : List Nat) (e : Int) (o : Outcome)
    (h : remap_one is e = .error o) : o = .undefinedBehavior := by
  unfold remap_one at h
  cases h1 : vgetI is (e - 1) with
  | error o' =>
      rw [h1] at h
      simp only [Bind.bind, Except.bind, Except.error.injEq] at h
      rw [← h]
      exact vgetI_error is (e - 1) o' h1
  | ok g =>
      rw [h1] at h
      simp [Bind.bind, Except.bind, pure, Except.pure] at h

/-- In-range remapping: every entry `e` becomes `is[e - 1] + 1`. -/
theorem remap_ok_of_in_range (connect : List Int) (is : List Nat)
    (h : ∀ e ∈ connect, 1 ≤ e ∧ (e - 1).toNat < is.length) :
    remap_connectivity connect is
      = .ok (connect.map fun e => (is.getD (e - 1).toNat 0 : Int) + 1) := by
  induction connect with
  | nil => rfl
  | cons e rest ih =>
      have he := h e (by simp)
      unfold remap_connectivity at ih ⊢
      rw [List.mapM_cons, remap_one_ok is e he.1 he.2]
      simp only [Bind.bind, Except.bind]
      rw [ih fun e' he' => h e' (by simp [he'])]
      simp [pure, Except.pure]

theorem remap_ok_in_range (connect : List Int) (is : List Nat) (xs : List Int)
    (h : remap_connectivity connect is = .ok xs) :
    ∀ e ∈ connect, 1 ≤ e ∧ (e - 1).toNat < is.length := by
  intro e he
  obtain ⟨y, hy⟩ := mapM_ok_forall _ connect xs h e he
  unfold remap_one at hy
  cases h1 : vgetI is (e - 1) with
  | error o => rw [h1] at hy; simp [Bind.bind, Except.bind] at hy
  | ok g =>
      have := vgetI_ok is (e - 1) g h1
      exact ⟨by omega, this.2⟩

theorem remap_error_ub (connect : List Int) (is : List Nat) (o : Outcome)
    (h : remap_connectivity connect is = .error o) : o = .undefinedBehavior := by
  induction connect with
  | nil =>
      unfold remap_connectivity at h
      rw [List.mapM_nil] at h
      simp [pure, Except.pure] at h
  | cons e rest ih =>
      unfold remap_connectivity at h ih
      rw [List.mapM_cons] at h
      cases h1 : remap_one is e with
      | error o' =>
          rw [h1] at h
          simp only [Bind.bind, Except.bind, Except.error.injEq] at h
          rw [← h]
          exact remap_one_error is e o' h1
      | ok g =>
          rw [h1] at h
          simp only [Bind.bind, Except.bind] at h
          cases h2 : rest.mapM (remap_one is) with
          | error o' =>
              rw [h2] at h
              simp only [Except.error.injEq] at h
              exact ih (h ▸ h2)
          | ok ys =>
              rw [h2] at h
              simp [pure, Except.pure] at h

/-- An out-of-range entry makes the whole remap undefined behavior —
no exception is raised. -/
theorem remap_oob (connect : List Int) (is : List Nat)
    (h : ∃ e ∈ connect, ¬(1 ≤ e ∧ (e - 1).toNat < is.length)) :
    remap_connectivity connect is = .error .undefinedBehavior := by
  obtain ⟨e, he, hbad⟩ := h
  cases hr : remap_connectivity connect is with
  | ok xs => exact absurd (remap_ok_in_range connect is xs hr e he) hbad
  | error o => rw [remap_error_ub connect is o hr]

/-!  Lemmas about the element-type table and snapping. -/

theorem element_type_ok_iff (s : String) :
    isOkB (element_type s) = true
      ↔ s = "BAR2" ∨ s = "TRI" ∨ s = "TRI3" ∨ s = "QUAD" ∨ s = "QUAD4" := by
  unfold element_type
  split_ifs with h1 h2 h3 <;> simp_all [isOkB]
  tauto

theorem element_type_err (s : String)
    (h : ¬(s = "BAR2" ∨ s = "TRI" ∨ s = "TRI3" ∨ s = "QUAD" ∨ s = "QUAD4")) :
    element_type s = .error (.raised (.UnsupportedElementType s)) := by
  push_neg at h
  obtain ⟨n1, n2, n3, n4, n5⟩ := h
  unfold element_type
  rw [if_neg n1, if_neg (by simp [n2, n3]), if_neg (by simp [n4, n5])]

theorem roundCpp_intCast (k : ℤ) : roundCpp ((k : ℚ)) = k := by
  have hhalf : ⌊(1 / 2 : ℚ)⌋ = 0 := by
    rw [← halfQ_eq, ← floorQ_eq]
    decide
  rw [roundCpp_eq]
  by_cases h : (0 : ℚ) ≤ (k : ℚ)
  · rw [if_pos h, Int.floor_int_add, hhalf, add_zero]
  · rw [if_neg h, show -((k : ℚ)) = ((-k : ℤ) : ℚ) by push_cast; ring,
      Int.floor_int_add, hhalf, add_zero, neg_neg]

theorem snap_coord_idem (v tol : ℚ) (h : tol ≠ 0) :
    snap_coord (snap_coord v tol) tol = snap_coord v tol := by
  simp only [snap_coord_eq]
  rw [mul_div_cancel_right₀ _ h, roundCpp_intCast]

theorem snap_point_idem (p : Point) :
    snap_point (snap_point p SNAP_TOLERANCE) SNAP_TOLERANCE
      = snap_point p SNAP_TOLERANCE := by
  have h : SNAP_TOLERANCE ≠ 0 := by decide
  unfold snap_point
  simp [snap_coord_idem _ _ h]

/-- Every key of the merged node map is a quantized point and is invariant
under re-snapping: the map keys ARE the quantized points. -/
theorem read_phase_node_map_snapped (fs : List ExoFile) (st : JoinState)
    (h : read_phase fs = .ok st) :
    ∀ p ∈ st.node_map, snap_point p SNAP_TOLERANCE = p := by
  intro p hp
  rw [read_phase_node_map fs st h] at hp
  have hss : p ∈ ((all_snapped_points fs).foldl nm_insert []).toFinset :=
    List.mem_toFinset.mpr hp
  rw [nm_fold_toFinset] at hss
  simp only [List.toFinset_nil, Finset.empty_union, List.mem_toFinset] at hss
  simp only [all_snapped_points, List.join, List.mem_flatten, List.mem_map] at hss
  obtain ⟨l, ⟨f, hf, rfl⟩, hpl⟩ := hss
  simp only [snapped_file_points, List.mem_map] at hpl
  obtain ⟨q, hq, rfl⟩ := hpl
  exact snap_point_idem q

/-- The merged node count is the number of DISTINCT quantized points across
all input files. -/
theorem read_phase_count (fs : List ExoFile) (st : JoinState)
    (h : read_phase fs = .ok st) :
    st.node_map.length = (all_snapped_points fs).toFinset.card := by
  rw [read_phase_node_map fs st h]
  have hnd : ((all_snapped_points fs).foldl nm_insert []).Nodup :=
    nm_fold_nodup _ [] (by simp)
  rw [← List.toFinset_card_of_nodup hnd, nm_fold_toFinset]
  simp

/-- Every file folded in by a successful read phase has dimension 2 or 3. -/
theorem read_phase_go_dims (fs : List ExoFile) (st0 st : JoinState)
    (h : fs.foldlM process_file st0 = .ok st) :
    ∀ f ∈ fs, f.dim = 2 ∨ f.dim = 3 := by
  induction fs generalizing st0 with
  | nil => simp
  | cons g gs ih =>
      obtain ⟨st1, h1, h2⟩ := foldlM_cons_ok h
      obtain ⟨bet, bconn, _, hdim, _, _⟩ := process_file_ok h1
      intro f hf
      rcases List.mem_cons.mp hf with rfl | hf
      · exact hdim
      · exact ih st1 h2 f hf

/-- A file with unsupported dimension whose element types parse is rejected
with `Unsupported dimension` during its read. -/
theorem process_file_bad_dim (st : JoinState) (f : ExoFile) (bet : List (Int × ElementType))
    (hbet : read_element_types f = .ok bet) (h2 : f.dim ≠ 2) (h3 : f.dim ≠ 3) :
    process_file st f = .error (.raised (.UnsupportedDimension f.dim)) := by
  unfold process_file
  rw [hbet]
  simp only [Bind.bind, Except.bind]
  rw [show read_file f f.dim st.node_map
      = .error (.raised (.UnsupportedDimension f.dim)) from by
    simp [read_file, h2, h3]]

/-!  Assembly for the nodal-variable scatter property. -/

/-- Interface well-formedness of one input file's nodal data, as the exodus
reader guarantees it: one row of variable arrays per timestep, one local
value array per variable, each of the file's local node count. -/
def file_wf (f : ExoFile) : Prop :=
  f.nodalVals.length = f.times.length ∧
  ∀ tv ∈ f.nodalVals, tv.length = f.nodalVarNames.length ∧
    ∀ vv ∈ tv, vv.length = (file_points f f.dim).length

instance file_wf_decidable (f : ExoFile) : Decidable (file_wf f) := by
  unfold file_wf
  infer_instance

theorem read_nodal_vals_get? (f : ExoFile) (t : Nat) (ht : t < f.times.length) :
    (read_nodal_vals f).get? t
      = some ((List.range f.nodalVarNames.length).map fun v =>
          (f.nodalVals.getD t []).getD v []) := by
  unfold read_nodal_vals
  rw [List.get?_map, List.get?_range ht]
  rfl

theorem zip_map_pairs (g : ExoFile → List (List (List ℚ))) :
    ∀ (fs : List ExoFile) (iss : List (List Nat)),
      List.Forall₂ (fun f is => List.length is = (file_points f f.dim).length) fs iss →
      ∀ p ∈ (fs.map g).zip iss,
        ∃ f ∈ fs, p.1 = g f ∧ p.2.length = (file_points f f.dim).length := by
  intro fs
  induction fs with
  | nil =>
      intro iss h p hp
      cases h
      simp at hp
  | cons f fs ih =>
      intro iss h p hp
      cases h with
      | cons hfa htail =>
          simp only [List.map_cons, List.zip_cons_cons, List.mem_cons] at hp
          rcases hp with rfl | hp
          · exact ⟨f, by simp, rfl, hfa⟩
          · obtain ⟨f', hf', h1, h2⟩ := ih _ htail p hp
            exact ⟨f', by simp [hf'], h1, h2⟩

theorem mem_zip_of_right {α β : Type} :
    ∀ (as : List α) (bs : List β), as.length = bs.length →
      ∀ b ∈ bs, ∃ a, (a, b) ∈ as.zip bs := by
  intro as
  induction as with
  | nil =>
      intro bs h b hb
      cases bs with
      | nil => simp at hb
      | cons b' bs' => simp at h
  | cons a as' ih =>
      intro bs h b hb
      cases bs with
      | nil => simp at hb
      | cons b' bs' =>
          simp only [List.mem_cons] at hb
          rcases hb with rfl | hb
          · exact ⟨a, by simp⟩
          · obtain ⟨a', ha'⟩ := ih bs' (by simpa using h) b hb
            exact ⟨a', by simp [ha']⟩

/-!  Concrete input files used to evaluate the pipeline at specific inputs. -/

/-- 2-D file: nodes (0,0), (1,0); one BAR2 block `7` `[1,2]`; variable "a",
time 1, values 10 and 20. -/
def fileA2D : ExoFile :=
  { dim := 2, xc := [0, 1], yc := [0, 0], zc := [],
    blocks := [{ id := 7, elemTypeStr := "BAR2", nNodesPerElem := 2, connect := [1, 2] }],
    nodalVarNames := ["a"], times := [1], nodalVals := [[[10, 20]]] }

/-- 2-D file sharing node (1,0) with `fileA2D`: nodes (1,0), (2,0); one BAR2
block `7` `[1,2]`; variable "b", time 2, values 30 and 40. -/
def fileB2D : ExoFile :=
  { dim := 2, xc := [1, 2], yc := [0, 0], zc := [],
    blocks := [{ id := 7, elemTypeStr := "BAR2", nNodesPerElem := 2, connect := [1, 2] }],
    nodalVarNames := ["b"], times := [2], nodalVals := [[[30, 40]]] }

/-- The read-phase state after `fileA2D` then `fileB2D`. -/
def stAB : JoinState :=
  match read_phase [fileA2D, fileB2D] with
  | .ok s => s
  | .error _ => default

/-- The merged output of `fileA2D` and `fileB2D`. -/
def outAB : OutFile :=
  match join_files [fileA2D, fileB2D] with
  | .ok o => o
  | .error _ => default

/-- Single-node 2-D file whose x-coordinate `1/3` is NOT on the snap grid. -/
def fileThird : ExoFile :=
  { dim := 2, xc := [Rat.divInt 1 3], yc := [0], zc := [], blocks := [],
    nodalVarNames := [], times := [], nodalVals := [] }

/-- The output of joining `fileThird` alone. -/
def outThird : OutFile :=
  match join_files [fileThird] with
  | .ok o => o
  | .error _ => default

/-- 2-D file declaring block `7` as a QUAD (4 nodes per element). -/
def fileQuad : ExoFile :=
  { dim := 2, xc := [0, 1, 1, 0], yc := [0, 0, 1, 1], zc := [],
    blocks := [{ id := 7, elemTypeStr := "QUAD", nNodesPerElem := 4, connect := [1, 2, 3, 4] }],
    nodalVarNames := [], times := [], nodalVals := [] }

/-- 2-D file declaring the SAME block id `7` as a TRI (3 nodes per element). -/
def fileTri : ExoFile :=
  { dim := 2, xc := [5, 6, 5], yc := [0, 0, 1], zc := [],
    blocks := [{ id := 7, elemTypeStr := "TRI", nNodesPerElem := 3, connect := [1, 2, 3] }],
    nodalVarNames := [], times := [], nodalVals := [] }

/-- The read-phase state after `fileQuad` then `fileTri`. -/
def stQT : JoinState :=
  match read_phase [fileQuad, fileTri] with
  | .ok s => s
  | .error _ => default

/-- The merged output of `fileQuad` and `fileTri` (type-mismatched block 7). -/
def outQT : OutFile :=
  match join_files [fileQuad, fileTri] with
  | .ok o => o
  | .error _ => default

/-- A 2-D file with one node and no blocks. -/
def noBlocks2D : ExoFile :=
  { dim := 2, xc := [3], yc := [3], zc := [], blocks := [],
    nodalVarNames := [], times := [], nodalVals := [] }

/-- A 3-D file with one node and no blocks. -/
def file3Dsmall : ExoFile :=
  { dim := 3, xc := [0], yc := [0], zc := [5], blocks := [],
    nodalVarNames := [], times := [], nodalVals := [] }

/-- The read-phase state after `noBlocks2D` (2-D) then `file3Dsmall` (3-D). -/
def stMixed : JoinState :=
  match read_phase [noBlocks2D, file3Dsmall] with
  | .ok s => s
  | .error _ => default

/-- The read-phase state after `fileA2D` then `noBlocks2D`: block 7 comes
only from the FIRST file, so the final element-type table does not know it. -/
def stAN : JoinState :=
  match read_phase [fileA2D, noBlocks2D] with
  | .ok s => s
  | .error _ => default

/-- A file declaring an unsupported mesh dimension. -/
def badDimFile : ExoFile :=
  { dim := 5, xc := [], yc := [], zc := [], blocks := [],
    nodalVarNames := [], times := [], nodalVals := [] }

/-- Two sample points on the snap grid. -/
def pA : Point := { x := 0, y := 0, z := 0 }

def pB : Point := { x := 1, y := 0, z := 0 }

theorem write_nodes_ok (dim : Int) (nm : List Point) (coords : List ℚ × List ℚ × List ℚ)
    (h : write_nodes dim nm = .ok coords) :
    coords.1 = nm.map Point.x ∧ coords.2.1 = nm.map Point.y := by
  unfold write_nodes at h
  split_ifs at h with h2 h3
  · simp only [Except.ok.injEq] at h
    rw [← h]
    exact ⟨rfl, rfl⟩
  · simp only [Except.ok.injEq] at h
    rw [← h]
    exact ⟨rfl, rfl⟩

/-!  The claims. -/

/-- C1: `get_or_insert` on a quantized point already present returns its
existing global id and leaves the node map unchanged; otherwise it appends
the point and assigns the next sequential id, equal to the count of distinct
points inserted so far; consequently, after a successful read phase the
merged node count equals the number of distinct quantized points across all
input files' coordinates (never the sum of per-file node counts when files
share nodes). -/
theorem c1_dedup_insertion_order :
    (∀ (m : List Point) (p : Point) (i : Nat),
      nm_lookup m p = some i → nm_get_or_insert m p = (m, i)) ∧
    (∀ (m : List Point) (p : Point),
      nm_lookup m p = none → nm_get_or_insert m p = (m ++ [p], m.length)) ∧
    (∀ (fs : List ExoFile) (st : JoinState), read_phase fs = .ok st →
      st.node_map.length = (all_snapped_points fs).toFinset.card) := by
  refine ⟨?_, ?_, read_phase_count⟩
  · intro m p i h
    unfold nm_get_or_insert
    rw [h]
  · intro m p h
    unfold nm_get_or_insert
    rw [h]

theorem c1_witness :
    nm_get_or_insert [pA, pB] pA = ([pA, pB], 0) ∧
    nm_get_or_insert [pA] pB = ([pA, pB], 1) ∧
    stAB.node_map.length = (all_snapped_points [fileA2D, fileB2D]).toFinset.card ∧
    stAB.node_map.length = 3 :=
  ⟨c1_dedup_insertion_order.1 [pA, pB] pA 0 (by decide),
   c1_dedup_insertion_order.2.1 [pA] pB (by decide),
   c1_dedup_insertion_order.2.2 [fileA2D, fileB2D] stAB (by decide),
   by decide⟩

/-- C2 (counterexample): for the single input file whose one node has
x-coordinate 1/3, the written x-coordinate is the QUANTIZED value
3333333333/10^10, not the original 1/3 — the output geometry is not the
original coordinates of the first-encountered instance. -/
theorem c2_counterexample :
    join_files [fileThird] = .ok outThird ∧
    fileThird.xc = [Rat.divInt 1 3] ∧
    outThird.xc = [Rat.divInt 3333333333 10000000000] ∧
    outThird.xc ≠ fileThird.xc :=
  ⟨by decide, by decide, by decide, by decide⟩

/-- C2 (amended): for every node of the merged output the written
coordinates are those of the QUANTIZED point of the first-encountered
instance — the node-map key itself, in first-encounter order — and every
written point is invariant under snapping: the quantized point is both the
lookup key and the output geometry. -/
theorem c2_amended_quantized_geometry (fs : List ExoFile) (out : OutFile)
    (h : join_files fs = .ok out) :
    out.xc = ((all_snapped_points fs).foldl nm_insert []).map Point.x ∧
    out.yc = ((all_snapped_points fs).foldl nm_insert []).map Point.y ∧
    ∀ p ∈ (all_snapped_points fs).foldl nm_insert [],
      snap_point p SNAP_TOLERANCE = p := by
  obtain ⟨st, hrp, hwp⟩ := join_files_ok_read fs out h
  obtain ⟨ne, coords, oblocks, ovals, _, hwn, _, _, hout⟩ := write_phase_ok hwp
  have hnm := read_phase_node_map fs st hrp
  have hsnap := read_phase_node_map_snapped fs st hrp
  obtain ⟨hx, hy⟩ := write_nodes_ok st.dim st.node_map coords hwn
  rw [hnm] at hx hy hsnap
  rw [hout]
  exact ⟨hx, hy, hsnap⟩

theorem c2_amended_witness :
    outThird.xc = ((all_snapped_points [fileThird]).foldl nm_insert []).map Point.x ∧
    outThird.yc = ((all_snapped_points [fileThird]).foldl nm_insert []).map Point.y :=
  ⟨(c2_amended_quantized_geometry [fileThird] outThird (by decide)).1,
   (c2_amended_quantized_geometry [fileThird] outThird (by decide)).2.1⟩

/-- C3 (counterexample): `fileQuad` declares block 7 as QUAD, `fileTri`
declares the same block id 7 as TRI, yet the join SUCCEEDS — no
`ConsistencyError`, an output is produced — and the output block's type is
the LAST file's (`TRI3`). -/
theorem c3_counterexample :
    read_element_types fileQuad = .ok [(7, ElementType.QUAD4)] ∧
    read_element_types fileTri = .ok [(7, ElementType.TRI3)] ∧
    join_files [fileQuad, fileTri] = .ok outQT ∧
    outQT.out_blocks.map (fun ob => (ob.1, ob.2.1)) = [(7, "TRI3")] :=
  ⟨by decide, by decide, by decide, by decide⟩

/-- C3 (amended): the join performs NO element-type consistency check across
files: the per-block element-type table is replaced wholesale by each file
read, so after the read loop it is exactly the LAST file's table, and every
block written to the output takes its type string from that last table; a
mismatch with an earlier file's declaration raises no error. -/
theorem c3_amended_no_consistency_check (gs : List ExoFile) (g : ExoFile) (st : JoinState)
    (h : read_phase (gs ++ [g]) = .ok st) :
    read_element_types g = .ok st.block_element_type ∧
    ∀ out, join_files (gs ++ [g]) = .ok out →
      ∀ ob ∈ out.out_blocks, ∃ et,
        alist_lookup st.block_element_type ob.1 = some et ∧
        element_type_str et = .ok ob.2.1 := by
  refine ⟨(read_phase_last gs g st h).1, ?_⟩
  intro out hout ob hob
  obtain ⟨st', hrp', hwp'⟩ := join_files_ok_read _ out hout
  rw [h] at hrp'
  cases hrp'
  obtain ⟨ne, coords, oblocks, ovals, _, _, hwe, _, houtrec⟩ := write_phase_ok hwp'
  rw [houtrec] at hob
  simp only at hob
  rw [write_elements_eq] at hwe
  obtain ⟨id, hid, hone⟩ := mapM_ok_mem _ _ _ hwe ob hob
  obtain ⟨hob1, et, hlook, hets⟩ := write_one_block_ok _ _ _ _ _ hone
  exact ⟨et, by rw [hob1]; exact hlook, hets⟩

theorem c3_amended_witness :
    read_element_types fileTri = .ok stQT.block_element_type ∧
    alist_lookup stQT.block_element_type 7 = some ElementType.TRI3 :=
  ⟨(c3_amended_no_consistency_check [fileQuad] fileTri stQT (by decide)).1,
   by decide⟩

/-- C4 (counterexample): the two files declare different variable names and
time values; the merged output uses the SECOND (last) file's name "b" and
time 2, not the first file's "a" and 1. -/
theorem c4_counterexample :
    fileA2D.nodalVarNames = ["a"] ∧ fileB2D.nodalVarNames = ["b"] ∧
    fileA2D.times = [1] ∧ fileB2D.times = [2] ∧
    join_files [fileA2D, fileB2D] = .ok outAB ∧
    outAB.var_names = ["b"] ∧ outAB.times = [2] ∧
    outAB.var_names ≠ fileA2D.nodalVarNames ∧ outAB.times ≠ fileA2D.times :=
  ⟨by decide, by decide, by decide, by decide, by decide, by decide, by decide,
   by decide, by decide⟩

/-- C4 (amended): the nodal variable names and the timestep sequence used
for the merged output are the ones read from the LAST file processed (the
per-file loop overwrites both on every iteration). -/
theorem c4_amended_last_file_names_times (gs : List ExoFile) (g : ExoFile) (st : JoinState)
    (h : read_phase (gs ++ [g]) = .ok st) :
    st.nodal_var_names = g.nodalVarNames ∧ st.times = g.times ∧
    ∀ out, join_files (gs ++ [g]) = .ok out →
      out.var_names = g.nodalVarNames ∧ out.times = g.times := by
  obtain ⟨_, hn, ht, _⟩ := read_phase_last gs g st h
  refine ⟨hn, ht, ?_⟩
  intro out hout
  obtain ⟨st', hrp', hwp'⟩ := join_files_ok_read _ out hout
  rw [h] at hrp'
  cases hrp'
  obtain ⟨ne, coords, oblocks, ovals, _, _, _, _, houtrec⟩ := write_phase_ok hwp'
  rw [houtrec]
  exact ⟨hn, ht⟩

theorem c4_amended_witness :
    stAB.nodal_var_names = fileB2D.nodalVarNames ∧
    outAB.var_names = fileB2D.nodalVarNames ∧ outAB.times = fileB2D.times :=
  ⟨(c4_amended_last_file_names_times [fileA2D] fileB2D stAB (by decide)).1,
   (c4_amended_last_file_names_times [fileA2D] fileB2D stAB (by decide)).2.2 outAB (by decide)⟩

/-- C5: for every timestep and variable, the merged global array written by
`write_nodal_variables` equals the spec's scatter: start from an all-zero
array of the global node count, and for each file in processing order write
each local value at the position its index set gives (later files'
writes overwrite earlier ones; untouched positions keep the zero default).
The hypotheses are the spec's documented preconditions: each file's
timestep and variable counts agree with the last file's, and each file's
value arrays are well-formed. -/
theorem c5_scatter_last_writer_wins (fs : List ExoFile) (st : JoinState)
    (h : read_phase fs = .ok st)
    (hcons : ∀ f ∈ fs, f.times.length = st.times.length ∧
      f.nodalVarNames.length = st.nodal_var_names.length ∧ file_wf f) :
    write_nodal_variables st.index_sets st.times st.node_map.length
        st.nodal_var_names st.nodal_vals
      = .ok ((List.range st.times.length).map fun t =>
          (List.range st.nodal_var_names.length).map fun v =>
            spec_scatter_from_zero st.nodal_vals st.index_sets t v st.node_map.length) := by
  obtain ⟨hbound, hcover⟩ := read_phase_go_inv fs init_state st h
    (by intro is his; simp [init_state] at his)
    (by intro j hj; simp [init_state] at hj)
  have hvals : st.nodal_vals = fs.map read_nodal_vals := by
    simpa [init_state] using read_phase_go_nodal_vals fs init_state st h
  obtain ⟨new, hnew, hforall⟩ := read_phase_go_index_sets fs init_state st h
  have hiss : st.index_sets = new := by simpa [init_state] using hnew
  have hlen_eq : st.index_sets.length = fs.length := by
    rw [hiss]
    exact (List.Forall₂.length_eq hforall).symm
  have hvlen : st.nodal_vals.length = fs.length := by simp [hvals]
  apply write_nodal_variables_eq
  · rw [hvlen, hlen_eq]
  · intro j hj
    obtain ⟨is, his, hjs⟩ := hcover j hj
    obtain ⟨nv, hnv⟩ := mem_zip_of_right st.nodal_vals st.index_sets
      (hvlen.trans hlen_eq.symm) is his
    exact ⟨(nv, is), hnv, hjs⟩
  · intro t ht v hv p hp
    rw [List.mem_range] at ht hv
    obtain ⟨f, hf, hp1, hp2len⟩ := zip_map_pairs read_nodal_vals fs st.index_sets
      (hiss ▸ hforall) p (by rw [← hvals]; exact hp)
    obtain ⟨hT, hV, hwf⟩ := hcons f hf
    have htf : t < f.times.length := by omega
    have hvf : v < f.nodalVarNames.length := by omega
    refine ⟨(List.range f.nodalVarNames.length).map fun v' =>
        (f.nodalVals.getD t []).getD v' [],
      (f.nodalVals.getD t []).getD v [], ?_, ?_, ?_, ?_⟩
    · rw [hp1]
      exact read_nodal_vals_get? f t htf
    · rw [List.get?_map, List.get?_range hvf]
      rfl
    · obtain ⟨hw1, hw2⟩ := hwf
      have htv : t < f.nodalVals.length := by omega
      have hrowget : f.nodalVals.getD t [] = f.nodalVals.get ⟨t, htv⟩ := by
        rw [List.getD_eq_get?, List.get?_eq_get htv]
        rfl
      have hmem : f.nodalVals.get ⟨t, htv⟩ ∈ f.nodalVals := List.get_mem _ _ _
      obtain ⟨htvlen, hvv⟩ := hw2 _ hmem
      have hvvm : v < (f.nodalVals.get ⟨t, htv⟩).length := by omega
      have hcell : (f.nodalVals.get ⟨t, htv⟩).getD v []
          = (f.nodalVals.get ⟨t, htv⟩).get ⟨v, hvvm⟩ := by
        rw [List.getD_eq_get?, List.get?_eq_get hvvm]
        rfl
      rw [hrowget, hcell, hp2len]
      exact hvv _ (List.get_mem _ _ _)
    · intro k hk
      exact hbound p.2 (List.of_mem_zip hp).2 k hk

theorem c5_witness :
    write_nodal_variables stAB.index_sets stAB.times stAB.node_map.length
        stAB.nodal_var_names stAB.nodal_vals
      = .ok [[[10, 30, 40]]] :=
  (c5_scatter_last_writer_wins [fileA2D, fileB2D] stAB (by decide) (by decide)).trans
    (by decide)

/-- C6 (counterexample): the connectivity entry 2 against a one-entry index
set references a local node id outside the file's node range; the code
performs an unchecked out-of-bounds vector access (undefined behavior), it
does NOT raise a fatal `IndexError`. -/
theorem c6_counterexample :
    remap_connectivity [2] [0] = .error Outcome.undefinedBehavior ∧
    Outcome.undefinedBehavior ≠ Outcome.raised JoinError.IndexError :=
  ⟨by decide, by decide⟩

/-- C6 (amended): every in-range connectivity entry `e` is replaced by
`is[e - 1] + 1` (the index-set entry for that local id, back in 1-based
form); a connectivity entry referencing a local node id outside the file's
node range leads to an unchecked out-of-bounds access (undefined behavior),
not a fatal `IndexError`. -/
theorem c6_amended_remap :
    (∀ (connect : List Int) (is : List Nat),
      (∀ e ∈ connect, 1 ≤ e ∧ (e - 1).toNat < is.length) →
      remap_connectivity connect is
        = .ok (connect.map fun e => (is.getD (e - 1).toNat 0 : Int) + 1)) ∧
    (∀ (connect : List Int) (is : List Nat),
      (∃ e ∈ connect, ¬(1 ≤ e ∧ (e - 1).toNat < is.length)) →
      remap_connectivity connect is = .error .undefinedBehavior) :=
  ⟨remap_ok_of_in_range, remap_oob⟩

theorem c6_amended_witness :
    remap_connectivity [1, 2] [5, 9] = .ok [6, 10] ∧
    remap_connectivity [3] [5, 9] = .error Outcome.undefinedBehavior :=
  ⟨(c6_amended_remap.1 [1, 2] [5, 9] (by decide)).trans (by decide),
   c6_amended_remap.2 [3] [5, 9] ⟨3, by decide, by decide⟩⟩

/-- C7 (counterexample): joining a 2-D file with a 3-D file raises NO error
— differing dimensionality between input files is not detected; each file is
read with its own dimension and the join succeeds. -/
theorem c7_counterexample :
    noBlocks2D.dim = 2 ∧ file3Dsmall.dim = 3 ∧
    isOkB (join_files [noBlocks2D, file3Dsmall]) = true :=
  ⟨by decide, by decide, by decide⟩

/-- C7 (amended): a fatal `Unsupported dimension` error is raised if an
input file's dimensionality is neither 2 nor 3 (so after a successful read
every file's dimension was 2 or 3); dimensionality DIFFERING between input
files is not checked and causes no error. -/
theorem c7_amended_dims :
    (∀ (fs : List ExoFile) (st : JoinState), read_phase fs = .ok st →
      ∀ f ∈ fs, f.dim = 2 ∨ f.dim = 3) ∧
    (∀ (st : JoinState) (f : ExoFile) (bet : List (Int × ElementType)),
      read_element_types f = .ok bet → f.dim ≠ 2 → f.dim ≠ 3 →
      process_file st f = .error (.raised (.UnsupportedDimension f.dim))) :=
  ⟨fun fs st h => read_phase_go_dims fs init_state st h,
   fun st f bet h h2 h3 => process_file_bad_dim st f bet h h2 h3⟩

theorem c7_amended_witness :
    (noBlocks2D.dim = 2 ∨ noBlocks2D.dim = 3) ∧
    process_file init_state badDimFile = .error (.raised (.UnsupportedDimension 5)) :=
  ⟨c7_amended_dims.1 [noBlocks2D, file3Dsmall] stMixed (by decide) noBlocks2D (by decide),
   c7_amended_dims.2 init_state badDimFile [] (by decide) (by decide) (by decide)⟩

/-- C8 (counterexample): the tetrahedron tags are NOT in the join engine's
element-type table (unlike the table in `src/common/common.h`): both TETRA
and TET4 are fatal `Unsupported element type` errors. -/
theorem c8_counterexample :
    element_type "TET4" = .error (.raised (.UnsupportedElementType "TET4")) ∧
    element_type "TETRA" = .error (.raised (.UnsupportedElementType "TETRA")) :=
  ⟨by decide, by decide⟩

/-- C8 (amended): the join engine's element-type table covers exactly the
line, triangle and quadrilateral tags BAR2, TRI, TRI3, QUAD, QUAD4; every
other tag — including the tetrahedron tags TETRA and TET4 — is fatal to the
join. -/
theorem c8_amended_table :
    (∀ s, isOkB (element_type s) = true ↔
      s = "BAR2" ∨ s = "TRI" ∨ s = "TRI3" ∨ s = "QUAD" ∨ s = "QUAD4") ∧
    (∀ s, ¬(s = "BAR2" ∨ s = "TRI" ∨ s = "TRI3" ∨ s = "QUAD" ∨ s = "QUAD4") →
      element_type s = .error (.raised (.UnsupportedElementType s))) :=
  ⟨element_type_ok_iff, element_type_err⟩

theorem c8_amended_witness :
    isOkB (element_type "QUAD") = true ∧
    element_type "HEX8" = .error (.raised (.UnsupportedElementType "HEX8")) :=
  ⟨(c8_amended_table.1 "QUAD").mpr (by decide), c8_amended_table.2 "HEX8" (by decide)⟩

/-- C9: any error raised while reading any input file propagates out of
`join_files` unchanged, without the output value ever being constructed
(the write phase, which alone creates the output file, is never entered);
conversely a successful join presupposes a fully successful read phase. -/
theorem c9_atomic_no_partial_output :
    (∀ (fs : List ExoFile) (e : Outcome),
      read_phase fs = .error e → join_files fs = .error e) ∧
    (∀ (fs : List ExoFile) (out : OutFile), join_files fs = .ok out →
      ∃ st, read_phase fs = .ok st ∧ write_phase st = .ok out) :=
  ⟨join_files_read_error, join_files_ok_read⟩

theorem c9_witness :
    join_files [badDimFile, fileA2D]
      = .error (Outcome.raised (JoinError.UnsupportedDimension 5)) :=
  c9_atomic_no_partial_output.1 [badDimFile, fileA2D] _ (by decide)

/-- C10: the per-block element-type table kept by the join holds only the
LAST input file's blocks; when an earlier file contributes a block id the
last file lacks, the write phase's `block_element_type.at(blk_id)` lookup
throws (out-of-range) and the join does not produce an output, even though
every input file was read successfully. -/
theorem c10_stale_element_type_table :
    (∀ (gs : List ExoFile) (g : ExoFile) (st : JoinState),
      read_phase (gs ++ [g]) = .ok st →
      read_element_types g = .ok st.block_element_type) ∧
    (∀ (fs : List ExoFile) (st : JoinState) (id : Int),
      read_phase fs = .ok st → id ∈ st.block_ids →
      alist_lookup st.block_element_type id = none →
      alist_at st.block_element_type id = .error (.raised (.MapOutOfRange id)) ∧
      isOkB (join_files fs) = false) := by
  refine ⟨fun gs g st h => (read_phase_last gs g st h).1, ?_⟩
  intro fs st id hrp hid hnone
  refine ⟨alist_at_err _ _ hnone, ?_⟩
  unfold join_files
  rw [hrp]
  simp only [Bind.bind, Except.bind]
  cases hw : write_phase st with
  | error e => simp [isOkB]
  | ok out =>
      obtain ⟨ne, coords, oblocks, ovals, _, _, hwe, _, _⟩ := write_phase_ok hw
      have hsome := write_elements_ok_lookup _ _ _ _ _ hwe id hid
      rw [hnone] at hsome
      simp at hsome

theorem c10_witness :
    (7 : Int) ∈ stAN.block_ids ∧
    alist_lookup stAN.block_element_type 7 = none ∧
    isOkB (join_files [fileA2D, noBlocks2D]) = false :=
  ⟨by decide, by decide,
   (c10_stale_element_type_table.2 [fileA2D, noBlocks2D] stAN 7 (by decide) (by decide)
     (by decide)).2⟩

end ExoJoin
